import Mathlib

/-!
Verification of the multi-ai-pro orchestration engine.

The engine (class `OrchestrationEngine`) coordinates calls to a completion
provider and a conversation context store under five strategies.  We embed
it shallowly: the provider and the context store are an explicit
environment (`Env`); engine methods become functions in a concrete
state-error monad (`EngineM`) whose state is the list of externally
observable events (provider calls, context writes and reads), so that the
claims about call counts, write ordering and message contents can be
stated over the event trace.  JavaScript peculiarities that the claims
hinge on (truthiness of arrays and of `0`, `JSON.parse` returning any
JSON value, property access on arbitrary values) are modelled explicitly
and flagged with comments at the point of translation.
-/

namespace MultiAI

/-- A JSON-like runtime value: models the result of `JSON.parse` and the
`metadata` payloads stored with context messages. -/
inductive JsValue where
  | str : String → JsValue
  | num : Int → JsValue
  | boolean : Bool → JsValue
  | null : JsValue
  | arr : List JsValue → JsValue
  | obj : List (String × JsValue) → JsValue
deriving Repr, BEq, Inhabited

/-- A metadata value stored with a context message: the engine only ever
stores strings (`models`, `reason`) and one number (`rounds`). -/
inductive MetaVal where
  | str : String → MetaVal
  | num : Int → MetaVal
deriving Repr, DecidableEq

/-- The ContextMessage type from src/types: role and content of one chat message
sent to the provider. -/
structure ContextMessage where
  role : String
  content : String
deriving Repr, DecidableEq

/-- A message persisted in the Context Store (`ContextManager.addMessage`
argument): role, content, optional model tag and optional metadata. -/
structure StoredMsg where
  role : String
  content : String
  model : Option String := none
  metadata : Option (List (String × MetaVal)) := none
deriving Repr, DecidableEq

/-- Completion options.  The source spreads `request.options` (an
`OrchestrationOptions`) into the per-call options object and adds a
`model` field; JavaScript objects are structural, so one record with all
optional fields models both interfaces.  Temperatures are rationals
(the source only ever writes the literal 0.3). -/
structure CompletionOptions where
  model : Option String := none
  temperature : Option Rat := none
  maxRounds : Option Nat := none
  includeReasoning : Option Bool := none
deriving Repr, DecidableEq

/-- The ProviderResponse type from src/types.  The `timestamp : Date` field is
wall-clock time, not used by any claim, and is omitted. -/
structure ProviderResponse where
  model : String
  response : String
deriving Repr, DecidableEq

/-- The DebateRound type from src/types. -/
structure DebateRound where
  round : Nat
  responses : List ProviderResponse
deriving Repr, DecidableEq

/-- The OrchestrationResult type from src/types.  `strategy` is a string: the TS
enum `OrchestrationStrategy` is a string enum. -/
structure OrchestrationResult where
  strategy : String
  models : List String
  responses : Option (List ProviderResponse) := none
  rounds : Option (List DebateRound) := none
  synthesis : Option String := none
  consensus : Option String := none
  conclusion : Option String := none
  conversationId : Option String := none
deriving Repr, DecidableEq

/-- The OrchestrationRequest type from src/types.  `strategy` is a string:
at runtime the value is whatever string the caller passed (the cast
`strategy as OrchestrationStrategy` in the tool layer is unchecked). -/
structure OrchestrationRequest where
  prompt : String
  strategy : String
  models : Option (List String) := none
  options : Option CompletionOptions := none
  useContext : Option Bool := none
deriving Repr, DecidableEq

/-- Externally observable events of one orchestrate run: provider calls
(`provider.complete` / `provider.completeWithContext`) and context-store
operations (`addMessage`, `getConversationHistory`, `getSummary`). -/
inductive Event where
  | providerComplete (prompt : String) (opts : CompletionOptions)
  | providerCompleteCtx (messages : List ContextMessage) (opts : CompletionOptions)
  | ctxAdd (m : StoredMsg)
  | ctxHistoryRead
  | ctxSummaryRead
deriving Repr, DecidableEq

/-- The external environment: deterministic models of the completion
provider (which may fail, returning `Except.error`), of `JSON.parse`
(`none` models a parse exception), and of the context store state at the
start of the run. -/
structure Env where
  complete : String → CompletionOptions → Except String String
  completeWithContext : List ContextMessage → CompletionOptions → Except String String
  jsonParse : String → Option JsValue
  initialHistory : List StoredMsg
  currentConversationId : String

/-- The engine monad: a computation reads and extends the event trace and
either returns a value or throws (JS exception / rejected promise). -/
def EngineM (α : Type) : Type := List Event → Except String α × List Event

instance : Monad EngineM where
  pure a := fun tr => (Except.ok a, tr)
  bind m f := fun tr =>
    match m tr with
    | (Except.ok a, tr') => f a tr'
    | (Except.error e, tr') => (Except.error e, tr')

/-- Models `throw new Error e`. -/
def throwErr (e : String) : EngineM α := fun tr => (Except.error e, tr)

/-- Context-store messages visible to `getConversationHistory`: the
messages present before the run plus every `addMessage` performed so far
(the store is append-only during a run). -/
def histOf (env : Env) (tr : List Event) : List StoredMsg :=
  env.initialHistory ++ tr.filterMap fun e =>
    match e with
    | Event.ctxAdd m => some m
    | _ => none

/-- Models `this.provider.complete(prompt, opts)`; the call is recorded in the
trace whether it succeeds or fails. -/
def callComplete (env : Env) (prompt : String) (opts : CompletionOptions) : EngineM String :=
  fun tr => (env.complete prompt opts, tr ++ [Event.providerComplete prompt opts])

/-- Models `this.provider.completeWithContext(messages, opts)`. -/
def callCompleteCtx (env : Env) (messages : List ContextMessage) (opts : CompletionOptions) :
    EngineM String :=
  fun tr => (env.completeWithContext messages opts, tr ++ [Event.providerCompleteCtx messages opts])

/-- The guarded provider call inside `parallelProcessing`: the `try`
block catches the error, logs it and yields `null` (here `none`). -/
def tryCallCompleteCtx (env : Env) (messages : List ContextMessage) (opts : CompletionOptions) :
    EngineM (Option String) :=
  fun tr =>
    (Except.ok (env.completeWithContext messages opts).toOption,
     tr ++ [Event.providerCompleteCtx messages opts])

/-- Models `this.contextManager.addMessage(...)`. -/
def addMessage (m : StoredMsg) : EngineM Unit :=
  fun tr => (Except.ok (), tr ++ [Event.ctxAdd m])

/-- Models `this.contextManager.getConversationHistory()`. -/
def getConversationHistory (env : Env) : EngineM (List StoredMsg) :=
  fun tr => (Except.ok (histOf env tr), tr ++ [Event.ctxHistoryRead])

/-- Models the read `(await this.contextManager.getSummary()).currentConversationId`. -/
def getSummaryId (env : Env) : EngineM String :=
  fun tr => (Except.ok env.currentConversationId, tr ++ [Event.ctxSummaryRead])

/-- JavaScript `array.join(sep)`. -/
def joinSep (sep : String) : List String → String
  | [] => ""
  | [a] => a
  | a :: b :: t => a ++ sep ++ joinSep sep (b :: t)

/-- The model ids of `PROGRAMMING_MODELS` (src/types), in ranked order.
Only the ids are consumed by the engine (`PROGRAMMING_MODELS.map(m => m.id)`);
name, context length, pricing and capabilities are presentation data. -/
def PROGRAMMING_MODEL_IDS : List String :=
  ["deepseek/deepseek-v3", "deepseek/deepseek-r1-0528", "anthropic/claude-sonnet-4",
   "google/gemini-2.5-pro", "google/gemini-2.5-flash", "x-ai/grok-3-beta",
   "openai/gpt-4.1", "meta-llama/llama-4-maverick", "qwen/qwen-2.5-coder-32b-instruct",
   "mistralai/codestral-2501"]

/-- Models `this.defaultModels = PROGRAMMING_MODELS.map(m => m.id)`. -/
def defaultModels : List String := PROGRAMMING_MODEL_IDS

/-- Models `request.models || this.defaultModels.slice(0, 3)`.  In JavaScript an
array is truthy even when empty, so the default is substituted only when
`models` is absent (`undefined`); a supplied empty list is kept as is. -/
def modelsOf (req : OrchestrationRequest) : List String :=
  match req.models with
  | some ms => ms
  | none => defaultModels.take 3

/-- Models the per-call options object: the request options spread into a
fresh object (spreading `undefined` adds nothing) with the model field
set. -/
def mergeOpts (o : Option CompletionOptions) (model : String) : CompletionOptions :=
  { o.getD {} with model := some model }

/-- The history entries mapped onto provider messages: the source pushes
one role/content pair per entry via forEach. -/
def histMessages (history : List StoredMsg) : List ContextMessage :=
  history.map fun m => ⟨m.role, m.content⟩

/-- The refinement prompt built at the end of each sequential iteration. -/
def refinePrompt (originalPrompt model response : String) : String :=
  "Original prompt: " ++ originalPrompt ++ "\n\nPrevious " ++ model ++ " response:\n" ++
    response ++ "\n\nPlease improve, refine, or add to this response."

/-- The message list sent to one model in `sequentialProcessing`: the
pre-fetched history (the source guards on `history.length > 0`, which is
behaviourally the same as always mapping) followed by the current prompt. -/
def seqMessages (history : List StoredMsg) (currentPrompt : String) : List ContextMessage :=
  (if history.length > 0 then histMessages history else []) ++ [⟨"user", currentPrompt⟩]

/-- The `for (const model of models)` loop of `sequentialProcessing`:
call the provider, append the response to the context store (when
`useContext` is not `false`), then recurse with the refinement prompt. -/
def seqLoop (env : Env) (req : OrchestrationRequest) (history : List StoredMsg) :
    List String → String → EngineM (List ProviderResponse)
  | [], _ => pure []
  | model :: rest, currentPrompt => do
    let response ← callCompleteCtx env (seqMessages history currentPrompt)
      (mergeOpts req.options model)
    if req.useContext ≠ some false then
      addMessage ⟨"assistant", response, some model, none⟩
    let restResponses ← seqLoop env req history rest (refinePrompt req.prompt model response)
    pure (⟨model, response⟩ :: restResponses)

/-- Models `OrchestrationEngine.sequentialProcessing`. -/
def sequentialProcessing (env : Env) (req : OrchestrationRequest) (models : List String) :
    EngineM OrchestrationResult := do
  let history ← if req.useContext ≠ some false then getConversationHistory env else pure []
  let responses ← seqLoop env req history models req.prompt
  pure { strategy := "sequential", models := models, responses := some responses }

/-- The message list sent to every model in `parallelProcessing`. -/
def parMessages (history : List StoredMsg) (prompt : String) : List ContextMessage :=
  histMessages history ++ [⟨"user", prompt⟩]

/-- The `models.map(async model => ...)` fan-out of `parallelProcessing`,
joined by `Promise.all`: the calls are issued in list order and each
failure is caught and replaced by `null` (`none`). -/
def parLoop (env : Env) (req : OrchestrationRequest) (history : List StoredMsg) :
    List String → EngineM (List (Option ProviderResponse))
  | [] => pure []
  | model :: rest => do
    let r ← tryCallCompleteCtx env (parMessages history req.prompt) (mergeOpts req.options model)
    let restResults ← parLoop env req history rest
    pure ((r.map fun resp => ProviderResponse.mk model resp) :: restResults)

/-- The synthesis prompt of `synthesizeResponses`. -/
def synthesisPrompt (responses : List ProviderResponse) (originalPrompt : String) : String :=
  "Original question: " ++ originalPrompt ++
  "\n\nI have received the following responses from different AI models:\n\n" ++
  joinSep "\n\n---\n\n" (responses.map fun r => r.model ++ ":\n" ++ r.response) ++
  "\n\nPlease synthesize these responses into a comprehensive, balanced answer that:" ++
  "\n1. Incorporates the best insights from each model" ++
  "\n2. Resolves any contradictions" ++
  "\n3. Provides a clear, actionable response" ++
  "\n4. Highlights any important considerations or caveats"

/-- Options of the synthesis call (temperature 0.3, fixed model). -/
def synthesisOpts : CompletionOptions :=
  { temperature := some ((3 : Rat) / 10), model := some "anthropic/claude-3.5-sonnet" }

/-- Models `OrchestrationEngine.synthesizeResponses`: a plain provider call with
no local error handling. -/
def synthesizeResponses (env : Env) (responses : List ProviderResponse)
    (originalPrompt : String) : EngineM String :=
  callComplete env (synthesisPrompt responses originalPrompt) synthesisOpts

/-- Models `OrchestrationEngine.parallelProcessing`.  The context write is
guarded by `request.useContext !== false && synthesis`: a string is
truthy exactly when non-empty. -/
def parallelProcessing (env : Env) (req : OrchestrationRequest) (models : List String) :
    EngineM OrchestrationResult := do
  let history ← if req.useContext ≠ some false then getConversationHistory env else pure []
  let collected ← parLoop env req history models
  let responses := collected.filterMap id
  let synthesis ← synthesizeResponses env responses req.prompt
  if req.useContext ≠ some false ∧ synthesis ≠ "" then
    addMessage ⟨"assistant", synthesis, some "synthesis",
      some [("models", MetaVal.str (joinSep ", " models))]⟩
  pure { strategy := "parallel", models := models, responses := some responses,
         synthesis := some synthesis }

/-- Models `OrchestrationEngine.formatDebateHistory`. -/
def formatDebateHistory (rounds : List DebateRound) : String :=
  joinSep "\n\n---\n\n" (rounds.map fun round =>
    "Round " ++ toString round.round ++ ":\n" ++
      joinSep "\n\n" (round.responses.map fun r => r.model ++ ": " ++ r.response))

/-- The prompt sent to each model in debate round `round` (0-based),
given the rounds completed so far. -/
def debatePrompt (debateContext : String) (rounds : List DebateRound) (round : Nat) : String :=
  if round = 0 then debateContext
  else
    debateContext ++ "\n\nPrevious responses in the debate:\n" ++ formatDebateHistory rounds ++
      "\n\nProvide your perspective, counter-arguments, or refinements:"

/-- The inner `for (const model of models)` loop of one debate round. -/
def debateModelsLoop (env : Env) (req : OrchestrationRequest) (debateContext : String)
    (rounds : List DebateRound) (round : Nat) :
    List String → EngineM (List ProviderResponse)
  | [] => pure []
  | model :: rest => do
    let response ← callComplete env (debatePrompt debateContext rounds round)
      (mergeOpts req.options model)
    let restResponses ← debateModelsLoop env req debateContext rounds round rest
    pure (⟨model, response⟩ :: restResponses)

/-- The outer `for (let round = 0; round < maxRounds; round++)` loop:
`remaining` counts rounds still to run, `round` is the 0-based index,
`rounds` accumulates completed rounds (stored 1-based, `round + 1`). -/
def debateRoundsLoop (env : Env) (req : OrchestrationRequest) (models : List String)
    (debateContext : String) :
    Nat → Nat → List DebateRound → EngineM (List DebateRound)
  | 0, _, rounds => pure rounds
  | remaining + 1, round, rounds => do
    let roundResponses ← debateModelsLoop env req debateContext rounds round models
    debateRoundsLoop env req models debateContext remaining (round + 1)
      (rounds ++ [⟨round + 1, roundResponses⟩])

/-- Models `request.options?.maxRounds || 3` — in JavaScript both `undefined`
and `0` are falsy, so 0 also falls back to 3. -/
def effectiveMaxRounds (req : OrchestrationRequest) : Nat :=
  match req.options.bind (·.maxRounds) with
  | some n => if n = 0 then 3 else n
  | none => 3

/-- The conclusion prompt of `generateDebateConclusion`. -/
def conclusionPrompt (rounds : List DebateRound) (originalPrompt : String) : String :=
  "Original topic: " ++ originalPrompt ++ "\n\nDebate history:\n" ++
  formatDebateHistory rounds ++
  "\n\nBased on this debate, provide a balanced conclusion that:" ++
  "\n1. Summarizes the key points raised by each model" ++
  "\n2. Identifies areas of agreement and disagreement" ++
  "\n3. Provides a well-reasoned final perspective" ++
  "\n4. Suggests the most practical approach or solution"

/-- Options of the conclusion call. -/
def conclusionOpts : CompletionOptions :=
  { temperature := some ((3 : Rat) / 10), model := some "openai/gpt-4o" }

/-- Models `OrchestrationEngine.generateDebateConclusion`. -/
def generateDebateConclusion (env : Env) (rounds : List DebateRound)
    (originalPrompt : String) : EngineM String :=
  callComplete env (conclusionPrompt rounds originalPrompt) conclusionOpts

/-- Models `OrchestrationEngine.debateMode`. -/
def debateMode (env : Env) (req : OrchestrationRequest) (models : List String) :
    EngineM OrchestrationResult := do
  let maxRounds := effectiveMaxRounds req
  let rounds ← debateRoundsLoop env req models req.prompt maxRounds 0 []
  let conclusion ← generateDebateConclusion env rounds req.prompt
  if req.useContext ≠ some false then
    addMessage ⟨"assistant", conclusion, some "debate-conclusion",
      some [("models", MetaVal.str (joinSep ", " models)),
            ("rounds", MetaVal.num (maxRounds : Int))]⟩
  pure { strategy := "debate", models := models, rounds := some rounds,
         conclusion := some conclusion }

/-- The consensus prompt of `findConsensus`. -/
def consensusPrompt (responses : List ProviderResponse) (originalPrompt : String) : String :=
  "Original question: " ++ originalPrompt ++
  "\n\nDifferent AI models provided these responses:\n\n" ++
  joinSep "\n\n---\n\n" (responses.map fun r => r.model ++ ":\n" ++ r.response) ++
  "\n\nAnalyze these responses and provide:" ++
  "\n1. Common themes and points of agreement" ++
  "\n2. Key differences in approach or content" ++
  "\n3. A consensus view that represents the shared understanding" ++
  "\n4. Any important caveats or considerations"

/-- Options of the consensus call. -/
def consensusOpts : CompletionOptions :=
  { temperature := some ((3 : Rat) / 10), model := some "google/gemini-2.5-pro-preview" }

/-- Models `OrchestrationEngine.findConsensus`. -/
def findConsensus (env : Env) (responses : List ProviderResponse)
    (originalPrompt : String) : EngineM String :=
  callComplete env (consensusPrompt responses originalPrompt) consensusOpts

/-- Models `OrchestrationEngine.consensusMode`: runs the whole parallel strategy
first (`parallelResult.responses || []` is `getD []`). -/
def consensusMode (env : Env) (req : OrchestrationRequest) (models : List String) :
    EngineM OrchestrationResult := do
  let parallelResult ← parallelProcessing env req models
  let responses := parallelResult.responses.getD []
  let consensus ← findConsensus env responses req.prompt
  if req.useContext ≠ some false then
    addMessage ⟨"assistant", consensus, some "consensus",
      some [("models", MetaVal.str (joinSep ", " models))]⟩
  pure { strategy := "consensus", models := models, responses := some responses,
         consensus := some consensus }

/-- The classification prompt of `analyzePromptType` (a template literal:
the source indentation of its continuation lines is part of the text). -/
def analysisPrompt (prompt : String) : String :=
  "Analyze this prompt and categorize it:\n    \"" ++ prompt ++ "\"\n    \n    " ++
  "Categories: coding, debugging, architecture, planning, analysis, creative\n    \n    " ++
  "Respond with: \x7b \"primary\": \"category\", \"secondary\": \"category\", " ++
  "\"complexity\": \"low|medium|high\" \x7d"

/-- Options of the classification call. -/
def analysisOpts : CompletionOptions :=
  { model := some "openai/gpt-4o-mini", temperature := some ((3 : Rat) / 10) }

/-- The hardcoded fallback classification of `analyzePromptType`. -/
def defaultClassification : JsValue :=
  JsValue.obj [("primary", JsValue.str "coding"), ("secondary", JsValue.str "general"),
               ("complexity", JsValue.str "medium")]

/-- Models `OrchestrationEngine.analyzePromptType`: one provider call, then
`try { return JSON.parse(response) } catch { return default }` — the
fallback fires only when parsing throws (`jsonParse` returns `none`);
any successfully parsed JSON value is returned as is. -/
def analyzePromptType (env : Env) (prompt : String) : EngineM JsValue := do
  let response ← callComplete env (analysisPrompt prompt) analysisOpts
  match env.jsonParse response with
  | some v => pure v
  | none => pure defaultClassification

/-- One selected specialist: model id and routing reason. -/
structure Specialist where
  model : String
  reason : String
deriving Repr, DecidableEq

/-- The fixed `specialistMap` lookup table of `selectSpecialists`. -/
def specialistMap : List (String × List String) :=
  [("coding", ["anthropic/claude-opus-4", "deepseek/deepseek-r1", "mistralai/codestral-2501"]),
   ("debugging", ["deepseek/deepseek-r1", "anthropic/claude-3.5-sonnet", "openai/gpt-4o"]),
   ("architecture", ["anthropic/claude-opus-4", "openai/gpt-4o", "google/gemini-2.5-pro-preview"]),
   ("planning", ["openai/gpt-4o", "anthropic/claude-3.5-sonnet", "google/gemini-2.5-pro-preview"]),
   ("analysis", ["google/gemini-2.5-pro-preview", "anthropic/claude-3.5-sonnet", "deepseek/deepseek-r1"]),
   ("creative", ["anthropic/claude-3.5-sonnet", "openai/gpt-4o", "google/gemini-2.5-pro-preview"])]

mutual

/-- JavaScript string conversion of a parsed JSON value, as performed by
template interpolation and by property-key coercion: strings unchanged,
numbers printed, null to the word null, plain objects to the bracketed
object tag, and arrays joined element-wise with commas, a null element
rendering empty. -/
def jsToString : JsValue → String
  | JsValue.str s => s
  | JsValue.num n => toString n
  | JsValue.boolean b => cond b "true" "false"
  | JsValue.null => "null"
  | JsValue.obj _ => "[object Object]"
  | JsValue.arr vs => jsArrJoin vs

/-- The array half of `jsToString`: elements joined with commas, a null
element rendering empty (as JavaScript Array.prototype.toString does). -/
def jsArrJoin : List JsValue → String
  | [] => ""
  | [JsValue.null] => ""
  | [v] => jsToString v
  | JsValue.null :: w :: t => "," ++ jsArrJoin (w :: t)
  | v :: w :: t => jsToString v ++ "," ++ jsArrJoin (w :: t)

end

/-- The string a possibly-undefined value turns into, both as a property
key and under template interpolation. -/
def jsPropertyKey : Option JsValue → String
  | none => "undefined"
  | some v => jsToString v

/-- JavaScript property access `v.key` for the keys the engine reads
(primary, secondary, complexity — none of which Object.prototype
provides, so own-key lookup is exact for them): `undefined` (`none`)
unless `v` is an object carrying the key, and a thrown TypeError when `v`
is null. -/
def getProp : JsValue → String → Except String (Option JsValue)
  | JsValue.null, _ => Except.error "TypeError: Cannot read properties of null"
  | JsValue.obj fields, key => Except.ok ((fields.find? fun p => p.1 = key).map (·.2))
  | _, _ => Except.ok none

/-- The property names every object literal inherits from
Object.prototype.  An indexing of `specialistMap` with one of these
yields the inherited member: a truthy function (or object), so the
falsy-fallback is skipped and the later for-of over it throws. -/
def objectPrototypeKeys : List String :=
  ["constructor", "hasOwnProperty", "isPrototypeOf", "propertyIsEnumerable",
   "toLocaleString", "toString", "valueOf", "__defineGetter__", "__defineSetter__",
   "__lookupGetter__", "__lookupSetter__", "__proto__"]

/-- The lookup `specialistMap[k] || fallback` followed by iterating the
result, for `k` the (possibly undefined, possibly non-string) value of
`analysis.primary` / `analysis.secondary`, coerced to a property key: an
own key yields its ranked list, an absent key yields the fallback, and a
key inherited from Object.prototype yields a truthy non-iterable member,
so the for-of over it throws.  (The source throws at the loop, after the
lookup; only the thrown outcome is observable, so the error is raised
here.) -/
def specialistLookup (key : Option JsValue) (fallback : List String) :
    Except String (List String) :=
  match specialistMap.find? fun p => p.1 = jsPropertyKey key with
  | some p => Except.ok p.2
  | none =>
      if jsPropertyKey key ∈ objectPrototypeKeys then
        Except.error "TypeError: not iterable"
      else
        Except.ok fallback

/-- Models the complexity ladder of the source: 3 when complexity is the
string high, 2 when it is medium, 1 otherwise (strict equality against a
string is true only for that exact string value). -/
def numModelsFor : Option JsValue → Nat
  | some (JsValue.str s) => if s = "high" then 3 else if s = "medium" then 2 else 1
  | _ => 1

/-- The first `for` loop of `selectSpecialists`: push each primary
candidate that is available while fewer than `numModels` are chosen. -/
def pushPrimary (avail : List String) (numModels : Nat) (reason : String) :
    List String → List Specialist → List Specialist
  | [], acc => acc
  | m :: rest, acc =>
    if m ∈ avail ∧ acc.length < numModels then
      pushPrimary avail numModels reason rest (acc ++ [⟨m, reason⟩])
    else
      pushPrimary avail numModels reason rest acc

/-- The second `for` loop of `selectSpecialists`: like the first but also
skipping models already chosen. -/
def pushSecondary (avail : List String) (numModels : Nat) (reason : String) :
    List String → List Specialist → List Specialist
  | [], acc => acc
  | m :: rest, acc =>
    if m ∈ avail ∧ (acc.find? fun s => s.model = m).isNone ∧ acc.length < numModels then
      pushSecondary avail numModels reason rest (acc ++ [⟨m, reason⟩])
    else
      pushSecondary avail numModels reason rest acc

/-- The selection core of `selectSpecialists`: the two push loops over
the already-resolved candidate lists and the first-available fallback. -/
def selectFrom (primarySpecialists secondarySpecialists : List String) (numModels : Nat)
    (reasonP reasonS : String) (availableModels : List String) : List Specialist :=
  let afterPrimary := pushPrimary availableModels numModels reasonP primarySpecialists []
  let specialists :=
    pushSecondary availableModels numModels reasonS secondarySpecialists afterPrimary
  if specialists.length = 0 then
    match availableModels with
    | m :: _ => specialists ++ [⟨m, "Default model"⟩]
    | [] => specialists
  else specialists

/-- Models `OrchestrationEngine.selectSpecialists`, including its two
throwing paths: property access on a null classification throws a
TypeError, and a primary/secondary category naming an Object.prototype
member makes the candidate list a truthy non-iterable whose for-of
throws.  On every other classification the selection completes with
`selectFrom`. -/
def selectSpecialists (analysis : JsValue) (availableModels : List String) :
    Except String (List Specialist) := do
  let primaryKey ← getProp analysis "primary"
  let primarySpecialists ← specialistLookup primaryKey ["openai/gpt-4o"]
  let secondaryKey ← getProp analysis "secondary"
  let secondarySpecialists ← specialistLookup secondaryKey []
  let complexity ← getProp analysis "complexity"
  pure (selectFrom primarySpecialists secondarySpecialists (numModelsFor complexity)
    ("Selected for " ++ jsPropertyKey primaryKey ++ " tasks")
    ("Secondary specialist for " ++ jsPropertyKey secondaryKey) availableModels)

/-- Lifts the outcome of a synchronous computation into the engine: a
thrown TypeError rejects the surrounding async method. -/
def liftExcept {α : Type} (e : Except String α) : EngineM α := fun tr => (e, tr)

/-- The `for (const specialist of specialists)` loop of
`specialistRouting`. -/
def specLoop (env : Env) (req : OrchestrationRequest) :
    List Specialist → EngineM (List ProviderResponse)
  | [] => pure []
  | specialist :: rest => do
    let response ← callComplete env req.prompt (mergeOpts req.options specialist.model)
    if req.useContext ≠ some false then
      addMessage ⟨"assistant", response, some specialist.model,
        some [("reason", MetaVal.str specialist.reason)]⟩
    let restResponses ← specLoop env req rest
    pure (⟨specialist.model, response⟩ :: restResponses)

/-- Models `OrchestrationEngine.specialistRouting`.  The selection is a
synchronous call inside the async method: a TypeError thrown by it
rejects the whole invocation. -/
def specialistRouting (env : Env) (req : OrchestrationRequest) (models : List String) :
    EngineM OrchestrationResult := do
  let analysis ← analyzePromptType env req.prompt
  let specialists ← liftExcept (selectSpecialists analysis models)
  let responses ← specLoop env req specialists
  pure { strategy := "specialist", models := specialists.map (·.model),
         responses := some responses }

/-- The user-role message `orchestrate` appends before dispatching. -/
def userMsg (prompt : String) : StoredMsg := ⟨"user", prompt, none, none⟩

/-- The `switch (request.strategy)` of `orchestrate`; the default branch
throws `Unknown orchestration strategy`. -/
def dispatch (env : Env) (req : OrchestrationRequest) (models : List String) :
    EngineM OrchestrationResult :=
  if req.strategy = "sequential" then sequentialProcessing env req models
  else if req.strategy = "parallel" then parallelProcessing env req models
  else if req.strategy = "debate" then debateMode env req models
  else if req.strategy = "consensus" then consensusMode env req models
  else if req.strategy = "specialist" then specialistRouting env req models
  else throwErr ("Unknown orchestration strategy: " ++ req.strategy)

/-- Models `OrchestrationEngine.orchestrate`. -/
def orchestrate (env : Env) (request : OrchestrationRequest) : EngineM OrchestrationResult := do
  let models := modelsOf request
  if request.useContext ≠ some false then
    addMessage (userMsg request.prompt)
  let result ← dispatch env request models
  let conversationId ← getSummaryId env
  pure { result with conversationId := some conversationId }

/-- One full orchestrate invocation started on an empty trace. -/
def runOrchestrate (env : Env) (req : OrchestrationRequest) :
    Except String OrchestrationResult × List Event :=
  orchestrate env req []

/-! ### Running the monad -/

theorem bind_apply {α β : Type} (m : EngineM α) (f : α → EngineM β) (tr : List Event) :
    (m >>= f) tr =
      match m tr with
      | (Except.ok a, tr') => f a tr'
      | (Except.error e, tr') => (Except.error e, tr') := rfl

theorem pure_apply {α : Type} (a : α) (tr : List Event) :
    (pure a : EngineM α) tr = (Except.ok a, tr) := rfl

/-- The trace produced by `orchestrate` before dispatching to a strategy:
the user-prompt context write, unless `useContext` is explicitly false. -/
def ctxInit (req : OrchestrationRequest) : List Event :=
  if req.useContext ≠ some false then [Event.ctxAdd (userMsg req.prompt)] else []

/-- A full run is: the initial user write, the dispatched strategy, and on
success the summary read that attaches the conversation id. -/
theorem runOrchestrate_eq (env : Env) (req : OrchestrationRequest) :
    runOrchestrate env req =
      match dispatch env req (modelsOf req) (ctxInit req) with
      | (Except.ok r, tr₁) =>
          (Except.ok { r with conversationId := some env.currentConversationId },
           tr₁ ++ [Event.ctxSummaryRead])
      | (Except.error e, tr₁) => (Except.error e, tr₁) := by
  by_cases h : req.useContext ≠ some false
  · simp only [runOrchestrate, orchestrate, ctxInit, if_pos h, bind_apply, addMessage,
      pure_apply, List.nil_append]
    cases hd : dispatch env req (modelsOf req) [Event.ctxAdd (userMsg req.prompt)] with
    | mk res tr₁ =>
      cases res <;> simp [bind_apply, getSummaryId, pure_apply]
  · simp only [runOrchestrate, orchestrate, ctxInit, if_neg h, bind_apply, pure_apply]
    cases hd : dispatch env req (modelsOf req) [] with
    | mk res tr₁ =>
      cases res <;> simp [bind_apply, getSummaryId, pure_apply]

/-- The default branch of the strategy switch: throw, leaving the trace
as it was. -/
theorem dispatch_unknown (env : Env) (req : OrchestrationRequest) (ms : List String)
    (tr : List Event)
    (hs : req.strategy ∉ ["sequential", "parallel", "debate", "consensus", "specialist"]) :
    dispatch env req ms tr =
      (Except.error ("Unknown orchestration strategy: " ++ req.strategy), tr) := by
  simp only [List.mem_cons, List.not_mem_nil, or_false, not_or] at hs
  obtain ⟨h1, h2, h3, h4, h5⟩ := hs
  simp [dispatch, h1, h2, h3, h4, h5, throwErr]

/-- True exactly on provider-call events. -/
def Event.isProviderCall : Event → Bool
  | Event.providerComplete _ _ => true
  | Event.providerCompleteCtx _ _ => true
  | _ => false

/-- Claim C4: for every request whose strategy is not one of the five
recognized values, `orchestrate` fails with the unknown-strategy error and
no provider call (neither `complete` nor `completeWithContext`) appears in
the event trace of the invocation. -/
theorem C4_unknown_strategy_no_provider_calls (env : Env) (req : OrchestrationRequest)
    (hs : req.strategy ∉ ["sequential", "parallel", "debate", "consensus", "specialist"]) :
    (runOrchestrate env req).1 =
        Except.error ("Unknown orchestration strategy: " ++ req.strategy) ∧
    (runOrchestrate env req).2.filter Event.isProviderCall = [] := by
  have hrw : runOrchestrate env req =
      (Except.error ("Unknown orchestration strategy: " ++ req.strategy), ctxInit req) := by
    have h0 := runOrchestrate_eq env req
    rw [dispatch_unknown env req _ _ hs] at h0
    exact h0
  rw [hrw]
  refine ⟨rfl, ?_⟩
  unfold ctxInit
  split <;> rfl

/-- Claim C10: with an unrecognized strategy and `useContext` not
explicitly false, the run both throws the unknown-strategy error and
leaves exactly the user-prompt write in the context store: the validation
failure is not atomic with respect to context state. -/
theorem C10_write_before_unknown_strategy_throw (env : Env) (req : OrchestrationRequest)
    (hs : req.strategy ∉ ["sequential", "parallel", "debate", "consensus", "specialist"])
    (hc : req.useContext ≠ some false) :
    runOrchestrate env req =
      (Except.error ("Unknown orchestration strategy: " ++ req.strategy),
       [Event.ctxAdd (userMsg req.prompt)]) := by
  have hrw : runOrchestrate env req =
      (Except.error ("Unknown orchestration strategy: " ++ req.strategy), ctxInit req) := by
    have h0 := runOrchestrate_eq env req
    rw [dispatch_unknown env req _ _ hs] at h0
    exact h0
  rw [hrw]
  unfold ctxInit
  rw [if_pos hc]

/-- A provider double whose calls all succeed with fixed strings and whose
parse model never parses. -/
def mockEnvA : Env where
  complete := fun _ _ => Except.ok "S"
  completeWithContext := fun _ _ => Except.ok "R"
  jsonParse := fun _ => none
  initialHistory := []
  currentConversationId := "conv-1"

/-- A request with an unrecognized strategy and `useContext` false. -/
def reqBogusNoCtx : OrchestrationRequest :=
  { prompt := "X", strategy := "bogus", useContext := some false }

/-- Witness for C4 at a concrete unrecognized strategy. -/
theorem C4_witness :
    (runOrchestrate mockEnvA reqBogusNoCtx).1 =
        Except.error "Unknown orchestration strategy: bogus" ∧
    (runOrchestrate mockEnvA reqBogusNoCtx).2.filter Event.isProviderCall = [] :=
  C4_unknown_strategy_no_provider_calls mockEnvA reqBogusNoCtx (by decide)

/-- A request with an unrecognized strategy and `useContext` left to its
default. -/
def reqBogusCtx : OrchestrationRequest := { prompt := "X", strategy := "nope" }

/-- Witness for C10 at a concrete unrecognized strategy. -/
theorem C10_witness :
    runOrchestrate mockEnvA reqBogusCtx =
      (Except.error "Unknown orchestration strategy: nope",
       [Event.ctxAdd (userMsg "X")]) :=
  C10_write_before_unknown_strategy_throw mockEnvA reqBogusCtx (by decide) (by decide)

/-! ### The parallel strategy -/

/-- The history snapshot a strategy reads at its start: what
`getConversationHistory` returns on the current trace, or `[]` when the
read is skipped because `useContext` is false. -/
def strategyHistory (env : Env) (req : OrchestrationRequest) (tr : List Event) :
    List StoredMsg :=
  if req.useContext ≠ some false then histOf env tr else []

/-- The provider call issued for one model of the parallel fan-out. -/
def parCallRes (env : Env) (req : OrchestrationRequest) (history : List StoredMsg)
    (model : String) : Except String String :=
  env.completeWithContext (parMessages history req.prompt) (mergeOpts req.options model)

/-- The per-model outcome after the local catch: `none` when the call
failed (the error is logged and dropped). -/
def parOutcome (env : Env) (req : OrchestrationRequest) (history : List StoredMsg)
    (model : String) : Option ProviderResponse :=
  (parCallRes env req history model).toOption.map fun resp => ⟨model, resp⟩

/-- The successful responses of the parallel fan-out, in input order. -/
def parResponses (env : Env) (req : OrchestrationRequest) (history : List StoredMsg)
    (models : List String) : List ProviderResponse :=
  (models.map (parOutcome env req history)).filterMap id

/-- The parallel fan-out never throws: it returns the per-model outcomes
in input order and records one provider call per model. -/
theorem parLoop_run (env : Env) (req : OrchestrationRequest) (history : List StoredMsg) :
    ∀ (ms : List String) (tr : List Event),
    parLoop env req history ms tr =
      (Except.ok (ms.map (parOutcome env req history)),
       tr ++ ms.map fun m =>
         Event.providerCompleteCtx (parMessages history req.prompt) (mergeOpts req.options m))
  | [], tr => by simp [parLoop, pure_apply]
  | m :: rest, tr => by
    simp only [parLoop, bind_apply, tryCallCompleteCtx, parLoop_run env req history rest,
      pure_apply, List.map_cons]
    simp [parOutcome, parCallRes, List.append_assoc]

/-- Value-level characterization of `parallelProcessing`: collect the
per-model outcomes, then the synthesis call decides success or failure of
the whole strategy. -/
theorem parallelProcessing_fst (env : Env) (req : OrchestrationRequest) (ms : List String)
    (tr : List Event) :
    (parallelProcessing env req ms tr).1 =
      (env.complete
          (synthesisPrompt (parResponses env req (strategyHistory env req tr) ms) req.prompt)
          synthesisOpts).map
        fun syn =>
          { strategy := "parallel", models := ms,
            responses := some (parResponses env req (strategyHistory env req tr) ms),
            synthesis := some syn } := by
  have hpr : ∀ hist, parResponses env req hist ms = ms.filterMap (parOutcome env req hist) := by
    intro hist
    simp [parResponses]
  by_cases hc : req.useContext ≠ some false
  · simp only [parallelProcessing, strategyHistory, if_pos hc, bind_apply,
      getConversationHistory, parLoop_run, pure_apply, hpr]
    cases hs : env.complete
        (synthesisPrompt (ms.filterMap (parOutcome env req (histOf env tr))) req.prompt)
        synthesisOpts with
    | error e =>
      simp [synthesizeResponses, callComplete, bind_apply, hs, Except.map]
    | ok syn =>
      by_cases hw : req.useContext ≠ some false ∧ syn ≠ "" <;>
        simp [synthesizeResponses, callComplete, bind_apply, hs, Except.map,
          addMessage, pure_apply, hw]
  · simp only [parallelProcessing, strategyHistory, if_neg hc, bind_apply, pure_apply,
      parLoop_run, hpr]
    cases hs : env.complete (synthesisPrompt (ms.filterMap (parOutcome env req [])) req.prompt)
        synthesisOpts with
    | error e =>
      simp [synthesizeResponses, callComplete, bind_apply, hs, Except.map]
    | ok syn =>
      by_cases hw : req.useContext ≠ some false ∧ syn ≠ "" <;>
        simp [synthesizeResponses, callComplete, bind_apply, hs, Except.map,
          addMessage, pure_apply, hw]

/-- Inversion of a successful run onto its dispatched strategy. -/
theorem runOrchestrate_ok_inv (env : Env) (req : OrchestrationRequest)
    (r : OrchestrationResult) (tr : List Event)
    (hrun : runOrchestrate env req = (Except.ok r, tr)) :
    ∃ r₁ tr₁, dispatch env req (modelsOf req) (ctxInit req) = (Except.ok r₁, tr₁) ∧
      r = { r₁ with conversationId := some env.currentConversationId } ∧
      tr = tr₁ ++ [Event.ctxSummaryRead] := by
  have h0 := runOrchestrate_eq env req
  cases hd : dispatch env req (modelsOf req) (ctxInit req) with
  | mk res tr₁ =>
    rw [hd] at h0
    cases res with
    | ok r₁ =>
      have h0' : runOrchestrate env req =
          (Except.ok { r₁ with conversationId := some env.currentConversationId },
           tr₁ ++ [Event.ctxSummaryRead]) := h0
      rw [h0'] at hrun
      injection hrun with h1 h2
      injection h1 with h1
      exact ⟨r₁, tr₁, rfl, h1.symm, h2.symm⟩
    | error e =>
      have h0' : runOrchestrate env req = (Except.error e, tr₁) := h0
      rw [h0'] at hrun
      injection hrun with h1 h2
      exact absurd h1 (by simp)

/-- Whether a provider call succeeded. -/
def callOk {α : Type} (r : Except String α) : Bool :=
  match r with
  | Except.ok _ => true
  | Except.error _ => false

/-- Claim C2 (amended): when every per-model `completeWithContext` call
succeeds but the synthesis `complete` call fails, the failure propagates
out of `orchestrate` as an error — no result with an absent synthesis is
returned, because `synthesizeResponses` has no local error handling. -/
theorem C2_synthesis_failure_propagates (env : Env) (req : OrchestrationRequest) (e : String)
    (hstrat : req.strategy = "parallel")
    (hfail : ∀ p o, env.complete p o = Except.error e)
    (hok : ∀ msgs o, ∃ s, env.completeWithContext msgs o = Except.ok s) :
    (runOrchestrate env req).1 = Except.error e := by
  have h0 := runOrchestrate_eq env req
  have hd : dispatch env req (modelsOf req) (ctxInit req) =
      parallelProcessing env req (modelsOf req) (ctxInit req) := by
    simp [dispatch, hstrat]
  rw [hd] at h0
  have hfst := parallelProcessing_fst env req (modelsOf req) (ctxInit req)
  rw [hfail _ _] at hfst
  cases hpp : parallelProcessing env req (modelsOf req) (ctxInit req) with
  | mk res tr₁ =>
    rw [hpp] at h0 hfst
    simp only [Except.map] at hfst
    rw [hfst] at h0
    have h0' : runOrchestrate env req = (Except.error e, tr₁) := h0
    rw [h0']

/-- A provider double whose context-free calls (used for synthesis) fail
while the per-model context calls succeed. -/
def mockEnvB : Env where
  complete := fun _ _ => Except.error "boom"
  completeWithContext := fun _ _ => Except.ok "R"
  jsonParse := fun _ => none
  initialHistory := []
  currentConversationId := "conv-1"

/-- A two-model parallel request with `useContext` false. -/
def reqParAB : OrchestrationRequest :=
  { prompt := "X", strategy := "parallel", models := some ["A", "B"],
    useContext := some false }

/-- Counterexample to C2 as stated: both per-model calls succeed (the
fan-out collects both responses), yet the run does not return a normal
result without synthesis — it fails with the synthesis error. -/
theorem C2_counterexample :
    (parLoop mockEnvB reqParAB [] ["A", "B"] []).1 =
        Except.ok [some ⟨"A", "R"⟩, some ⟨"B", "R"⟩] ∧
    (runOrchestrate mockEnvB reqParAB).1 = Except.error "boom" :=
  ⟨rfl, rfl⟩

/-- Witness for the amended C2 at the concrete failing environment. -/
theorem C2_witness : (runOrchestrate mockEnvB reqParAB).1 = Except.error "boom" :=
  C2_synthesis_failure_propagates mockEnvB reqParAB "boom" rfl (fun _ _ => rfl)
    (fun _ _ => ⟨"R", rfl⟩)

theorem parResponses_nil (env : Env) (req : OrchestrationRequest) (hist : List StoredMsg) :
    parResponses env req hist [] = [] := rfl

theorem parResponses_cons_ok (env : Env) (req : OrchestrationRequest) (hist : List StoredMsg)
    (m : String) (rest : List String) (resp : String)
    (h : parCallRes env req hist m = Except.ok resp) :
    parResponses env req hist (m :: rest) =
      ⟨m, resp⟩ :: parResponses env req hist rest := by
  simp [parResponses, parOutcome, h, Except.toOption]

theorem parResponses_cons_err (env : Env) (req : OrchestrationRequest) (hist : List StoredMsg)
    (m : String) (rest : List String) (e : String)
    (h : parCallRes env req hist m = Except.error e) :
    parResponses env req hist (m :: rest) = parResponses env req hist rest := by
  simp [parResponses, parOutcome, h, Except.toOption]

/-- When every per-model call succeeds the collected responses follow the
input model order exactly. -/
theorem parResponses_models_of_all_ok (env : Env) (req : OrchestrationRequest)
    (hist : List StoredMsg) :
    ∀ ms : List String, (∀ m ∈ ms, callOk (parCallRes env req hist m) = true) →
      (parResponses env req hist ms).map (·.model) = ms
  | [], _ => rfl
  | m :: rest, h => by
    have hrest := parResponses_models_of_all_ok env req hist rest
      (fun x hx => h x (List.mem_cons_of_mem m hx))
    cases hc : parCallRes env req hist m with
    | ok resp => rw [parResponses_cons_ok env req hist m rest resp hc]; simp [hrest]
    | error e =>
      have hm := h m (List.mem_cons_self m rest)
      rw [hc] at hm
      simp [callOk] at hm

/-- Every collected response is the value of a successful provider call
for its model. -/
theorem parResponses_mem (env : Env) (req : OrchestrationRequest) (hist : List StoredMsg) :
    ∀ ms : List String, ∀ pr ∈ parResponses env req hist ms,
      parCallRes env req hist pr.model = Except.ok pr.response
  | [], pr, h => absurd h (by simp [parResponses_nil])
  | m :: rest, pr, h => by
    cases hc : parCallRes env req hist m with
    | ok resp =>
      rw [parResponses_cons_ok env req hist m rest resp hc] at h
      rcases List.mem_cons.mp h with h1 | h1
      · subst h1; exact hc
      · exact parResponses_mem env req hist rest pr h1
    | error e =>
      rw [parResponses_cons_err env req hist m rest e hc] at h
      exact parResponses_mem env req hist rest pr h

/-- The collected-response count plus the failed-call count is the model
count: exactly the failed calls are dropped. -/
theorem parResponses_length (env : Env) (req : OrchestrationRequest) (hist : List StoredMsg) :
    ∀ ms : List String,
      (parResponses env req hist ms).length +
        ms.countP (fun m => !callOk (parCallRes env req hist m)) = ms.length
  | [] => rfl
  | m :: rest => by
    have hrest := parResponses_length env req hist rest
    cases hc : parCallRes env req hist m with
    | ok resp =>
      rw [parResponses_cons_ok env req hist m rest resp hc]
      simp [List.countP_cons, hc, callOk, ← hrest]
      ring
    | error e =>
      rw [parResponses_cons_err env req hist m rest e hc]
      simp [List.countP_cons, hc, callOk, ← hrest]
      ring

/-- The trace position at which the parallel fan-out starts: after the
initial user write and the history read (the latter only when
`useContext` is not false). -/
def parStartTrace (req : OrchestrationRequest) : List Event :=
  ctxInit req ++ if req.useContext ≠ some false then [Event.ctxHistoryRead] else []

/-- Claim C5: in a successful parallel run, the result responses are the
per-model outcomes in input order; with all calls succeeding there is one
response per model, each matching its call; with K failures exactly the
failing models are missing; and the fan-out itself never throws. -/
theorem C5_parallel_responses (env : Env) (req : OrchestrationRequest)
    {r : OrchestrationResult} {tr : List Event}
    (hstrat : req.strategy = "parallel")
    (hrun : runOrchestrate env req = (Except.ok r, tr)) :
    r.responses =
        some (parResponses env req (strategyHistory env req (ctxInit req)) (modelsOf req)) ∧
    ((∀ m ∈ modelsOf req,
        callOk (parCallRes env req (strategyHistory env req (ctxInit req)) m) = true) →
      (r.responses.getD []).map (·.model) = modelsOf req) ∧
    (∀ pr ∈ r.responses.getD [],
      parCallRes env req (strategyHistory env req (ctxInit req)) pr.model =
        Except.ok pr.response) ∧
    (r.responses.getD []).length +
        (modelsOf req).countP
          (fun m => !callOk (parCallRes env req (strategyHistory env req (ctxInit req)) m)) =
      (modelsOf req).length ∧
    callOk ((parLoop env req (strategyHistory env req (ctxInit req)) (modelsOf req)
        (parStartTrace req)).1) = true := by
  obtain ⟨r₁, tr₁, hd, hr, htr⟩ := runOrchestrate_ok_inv env req r tr hrun
  have hd' : parallelProcessing env req (modelsOf req) (ctxInit req) = (Except.ok r₁, tr₁) := by
    rw [← hd]; simp [dispatch, hstrat]
  have hfst := parallelProcessing_fst env req (modelsOf req) (ctxInit req)
  rw [hd'] at hfst
  have hloop := parLoop_run env req (strategyHistory env req (ctxInit req)) (modelsOf req)
    (parStartTrace req)
  cases hs : env.complete
      (synthesisPrompt (parResponses env req (strategyHistory env req (ctxInit req))
        (modelsOf req)) req.prompt) synthesisOpts with
  | error e =>
    rw [hs] at hfst
    simp only [Except.map] at hfst
    exact absurd hfst (by simp)
  | ok syn =>
    rw [hs] at hfst
    simp only [Except.map] at hfst
    injection hfst with hr₁
    subst hr
    subst hr₁
    refine ⟨rfl, ?_, ?_, ?_, ?_⟩
    · intro hall
      simpa using parResponses_models_of_all_ok env req
        (strategyHistory env req (ctxInit req)) (modelsOf req) hall
    · intro pr hpr
      refine parResponses_mem env req (strategyHistory env req (ctxInit req)) (modelsOf req)
        pr ?_
      simpa using hpr
    · simpa using parResponses_length env req (strategyHistory env req (ctxInit req))
        (modelsOf req)
    · rw [hloop]
      rfl

/-- A provider double whose per-model calls succeed except for model B. -/
def mockEnvE : Env where
  complete := fun _ _ => Except.ok "S"
  completeWithContext := fun _ o =>
    match o.model with
    | some "B" => Except.error "down"
    | _ => Except.ok "R"
  jsonParse := fun _ => none
  initialHistory := []
  currentConversationId := "conv-1"

/-- A three-model parallel request whose middle model fails. -/
def reqParABC : OrchestrationRequest :=
  { prompt := "X", strategy := "parallel", models := some ["A", "B", "C"],
    useContext := some false }

/-- The result of the run of `reqParABC` against `mockEnvE`. -/
def resParABC : OrchestrationResult :=
  { strategy := "parallel", models := ["A", "B", "C"],
    responses := some [⟨"A", "R"⟩, ⟨"C", "R"⟩], synthesis := some "S",
    conversationId := some "conv-1" }

/-- Witness for C5 at a concrete partially-failing environment. -/
theorem C5_witness :
    resParABC.responses =
        some (parResponses mockEnvE reqParABC
          (strategyHistory mockEnvE reqParABC (ctxInit reqParABC)) (modelsOf reqParABC)) ∧
    ((∀ m ∈ modelsOf reqParABC,
        callOk (parCallRes mockEnvE reqParABC
          (strategyHistory mockEnvE reqParABC (ctxInit reqParABC)) m) = true) →
      (resParABC.responses.getD []).map (·.model) = modelsOf reqParABC) ∧
    (∀ pr ∈ resParABC.responses.getD [],
      parCallRes mockEnvE reqParABC
          (strategyHistory mockEnvE reqParABC (ctxInit reqParABC)) pr.model =
        Except.ok pr.response) ∧
    (resParABC.responses.getD []).length +
        (modelsOf reqParABC).countP
          (fun m => !callOk (parCallRes mockEnvE reqParABC
            (strategyHistory mockEnvE reqParABC (ctxInit reqParABC)) m)) =
      (modelsOf reqParABC).length ∧
    callOk ((parLoop mockEnvE reqParABC
        (strategyHistory mockEnvE reqParABC (ctxInit reqParABC)) (modelsOf reqParABC)
        (parStartTrace reqParABC)).1) = true :=
  C5_parallel_responses mockEnvE reqParABC rfl rfl

/-! ### The models field of each strategy result -/

/-- Inversion of a computation that ends by returning a pure function of
its last intermediate value. -/
theorem bind_pure_ok {α β : Type} (m : EngineM α) (g : α → β) (tr tr' : List Event) (r : β)
    (h : (m >>= fun a => pure (g a)) tr = (Except.ok r, tr')) :
    ∃ a, m tr = (Except.ok a, tr') ∧ r = g a := by
  rw [bind_apply] at h
  cases hm : m tr with
  | mk res tr₂ =>
    rw [hm] at h
    cases res with
    | ok a =>
      simp only [pure_apply] at h
      injection h with h1 h2
      injection h1 with h1
      exact ⟨a, by rw [h2], h1.symm⟩
    | error e =>
      injection h with h1 h2
      exact absurd h1 (by simp)

theorem sequentialProcessing_models (env : Env) (req : OrchestrationRequest) (ms : List String)
    (tr : List Event) (r : OrchestrationResult) (tr' : List Event)
    (h : sequentialProcessing env req ms tr = (Except.ok r, tr')) : r.models = ms := by
  simp only [sequentialProcessing] at h
  by_cases hc : req.useContext ≠ some false
  · rw [if_pos hc] at h
    simp only [bind_apply, getConversationHistory] at h
    obtain ⟨a, _, hrg⟩ := bind_pure_ok _ _ _ _ _ h
    rw [hrg]
  · rw [if_neg hc] at h
    simp only [bind_apply, pure_apply] at h
    obtain ⟨a, _, hrg⟩ := bind_pure_ok _ _ _ _ _ h
    rw [hrg]

theorem parallelProcessing_models (env : Env) (req : OrchestrationRequest) (ms : List String)
    (tr : List Event) (r : OrchestrationResult) (tr' : List Event)
    (h : parallelProcessing env req ms tr = (Except.ok r, tr')) : r.models = ms := by
  have hfst := parallelProcessing_fst env req ms tr
  rw [h] at hfst
  cases hs : env.complete
      (synthesisPrompt (parResponses env req (strategyHistory env req tr) ms) req.prompt)
      synthesisOpts with
  | error e =>
    rw [hs] at hfst
    exact absurd hfst (by simp [Except.map])
  | ok syn =>
    rw [hs] at hfst
    simp only [Except.map] at hfst
    injection hfst with h1
    rw [h1]

theorem debateMode_models (env : Env) (req : OrchestrationRequest) (ms : List String)
    (tr : List Event) (r : OrchestrationResult) (tr' : List Event)
    (h : debateMode env req ms tr = (Except.ok r, tr')) : r.models = ms := by
  simp only [debateMode, bind_apply] at h
  cases hR : debateRoundsLoop env req ms req.prompt (effectiveMaxRounds req) 0 [] tr with
  | mk resR trR =>
    rw [hR] at h
    cases resR with
    | error e =>
      injection h with h1 _
      exact absurd h1 (by simp)
    | ok rounds =>
      simp only [generateDebateConclusion, callComplete, bind_apply] at h
      cases hC : env.complete (conclusionPrompt rounds req.prompt) conclusionOpts with
      | error e =>
        simp only [hC] at h
        injection h with h1 _
        exact absurd h1 (by simp)
      | ok conclusion =>
        simp only [hC] at h
        by_cases hc : req.useContext ≠ some false
        · rw [if_pos hc] at h
          simp only [bind_apply, addMessage, pure_apply] at h
          injection h with h1 h2
          injection h1 with h1
          rw [← h1]
        · rw [if_neg hc] at h
          simp only [bind_apply, pure_apply] at h
          injection h with h1 h2
          injection h1 with h1
          rw [← h1]

theorem consensusMode_models (env : Env) (req : OrchestrationRequest) (ms : List String)
    (tr : List Event) (r : OrchestrationResult) (tr' : List Event)
    (h : consensusMode env req ms tr = (Except.ok r, tr')) : r.models = ms := by
  simp only [consensusMode, bind_apply] at h
  cases hP : parallelProcessing env req ms tr with
  | mk resP trP =>
    rw [hP] at h
    cases resP with
    | error e =>
      injection h with h1 _
      exact absurd h1 (by simp)
    | ok pr =>
      simp only [findConsensus, callComplete, bind_apply] at h
      cases hC : env.complete (consensusPrompt (pr.responses.getD []) req.prompt)
          consensusOpts with
      | error e =>
        simp only [hC] at h
        injection h with h1 _
        exact absurd h1 (by simp)
      | ok cons =>
        simp only [hC] at h
        by_cases hc : req.useContext ≠ some false
        · rw [if_pos hc] at h
          simp only [bind_apply, addMessage, pure_apply] at h
          injection h with h1 h2
          injection h1 with h1
          rw [← h1]
        · rw [if_neg hc] at h
          simp only [bind_apply, pure_apply] at h
          injection h with h1 h2
          injection h1 with h1
          rw [← h1]

theorem specialistRouting_models (env : Env) (req : OrchestrationRequest) (ms : List String)
    (tr : List Event) (r : OrchestrationResult) (tr' : List Event)
    (h : specialistRouting env req ms tr = (Except.ok r, tr')) :
    ∃ analysis specs, selectSpecialists analysis ms = Except.ok specs ∧
      r.models = specs.map (·.model) := by
  simp only [specialistRouting, bind_apply] at h
  cases hA : analyzePromptType env req.prompt tr with
  | mk resA trA =>
    rw [hA] at h
    cases resA with
    | error e =>
      injection h with h1 _
      exact absurd h1 (by simp)
    | ok analysis =>
      cases hS : selectSpecialists analysis ms with
      | error e =>
        simp only [liftExcept, hS] at h
        injection h with h1 _
        exact absurd h1 (by simp)
      | ok specs =>
        simp only [liftExcept, hS] at h
        refine ⟨analysis, specs, hS, ?_⟩
        obtain ⟨a, _, hrg⟩ := bind_pure_ok _ _ _ _ _ h
        rw [hrg]

/-- When at least one model is available the selection core is never
empty: if both candidate loops produced nothing, the fallback picks the
first available model. -/
theorem selectFrom_ne_nil (pl sl : List String) (n : Nat) (rp rs : String)
    (m : String) (rest : List String) : selectFrom pl sl n rp rs (m :: rest) ≠ [] := by
  simp only [selectFrom]
  split
  · simp
  · next h =>
    intro hnil
    rw [hnil] at h
    exact h rfl

/-- A completed specialist selection over a non-empty model list is
non-empty. -/
theorem selectSpecialists_ok_ne_nil (analysis : JsValue) (m : String) (rest : List String)
    {specs : List Specialist}
    (h : selectSpecialists analysis (m :: rest) = Except.ok specs) : specs ≠ [] := by
  simp only [selectSpecialists, bind, Except.bind] at h
  cases h1 : getProp analysis "primary" with
  | error e => simp [h1] at h
  | ok pk =>
    simp only [h1] at h
    cases h2 : specialistLookup pk ["openai/gpt-4o"] with
    | error e => simp [h2] at h
    | ok pl =>
      simp only [h2] at h
      cases h3 : getProp analysis "secondary" with
      | error e => simp [h3] at h
      | ok sk =>
        simp only [h3] at h
        cases h4 : specialistLookup sk [] with
        | error e => simp [h4] at h
        | ok sl =>
          simp only [h4] at h
          cases h5 : getProp analysis "complexity" with
          | error e => simp [h5] at h
          | ok ck =>
            simp only [h5, pure, Except.pure] at h
            injection h with h
            rw [← h]
            exact selectFrom_ne_nil _ _ _ _ _ m rest

/-- A parallel request whose models field is an explicitly empty list. -/
def reqParEmpty : OrchestrationRequest :=
  { prompt := "X", strategy := "parallel", models := some [], useContext := some false }

/-- Counterexample to C1 as stated: with `models` supplied as the empty
list the default set is NOT substituted (`[] || d` keeps `[]` because an
empty array is truthy in JavaScript), the run drives zero per-model
provider calls and returns `result.models = []`. -/
theorem C1_counterexample :
    reqParEmpty.models = some [] ∧
    ((runOrchestrate mockEnvA reqParEmpty).1.map fun r => r.models) = Except.ok [] :=
  ⟨rfl, rfl⟩

/-- Claim C1 (amended): the default model set — the first three entries of
the fixed ranked list — is substituted only when the `models` field is
absent from the request; in that case every successful run of any of the
five strategies returns a non-empty `result.models`.  (An explicitly
empty supplied list is used as is and yields `result.models = []`.) -/
theorem C1_default_models_when_absent (env : Env) (req : OrchestrationRequest)
    {r : OrchestrationResult} {tr : List Event}
    (hm : req.models = none)
    (hrun : runOrchestrate env req = (Except.ok r, tr)) :
    modelsOf req = defaultModels.take 3 ∧ r.models ≠ [] := by
  have hmodels : modelsOf req = defaultModels.take 3 := by simp [modelsOf, hm]
  refine ⟨hmodels, ?_⟩
  obtain ⟨r₁, tr₁, hd, hr, htr⟩ := runOrchestrate_ok_inv env req r tr hrun
  subst hr
  show r₁.models ≠ []
  by_cases h1 : req.strategy = "sequential"
  · have hmm := sequentialProcessing_models env req (modelsOf req) (ctxInit req) r₁ tr₁
      (by rw [← hd]; simp [dispatch, h1])
    rw [hmm, hmodels]
    simp [defaultModels, PROGRAMMING_MODEL_IDS]
  by_cases h2 : req.strategy = "parallel"
  · have hmm := parallelProcessing_models env req (modelsOf req) (ctxInit req) r₁ tr₁
      (by rw [← hd]; simp [dispatch, h1, h2])
    rw [hmm, hmodels]
    simp [defaultModels, PROGRAMMING_MODEL_IDS]
  by_cases h3 : req.strategy = "debate"
  · have hmm := debateMode_models env req (modelsOf req) (ctxInit req) r₁ tr₁
      (by rw [← hd]; simp [dispatch, h1, h2, h3])
    rw [hmm, hmodels]
    simp [defaultModels, PROGRAMMING_MODEL_IDS]
  by_cases h4 : req.strategy = "consensus"
  · have hmm := consensusMode_models env req (modelsOf req) (ctxInit req) r₁ tr₁
      (by rw [← hd]; simp [dispatch, h1, h2, h3, h4])
    rw [hmm, hmodels]
    simp [defaultModels, PROGRAMMING_MODEL_IDS]
  by_cases h5 : req.strategy = "specialist"
  · obtain ⟨analysis, specs, hok, hma⟩ := specialistRouting_models env req (modelsOf req)
      (ctxInit req) r₁ tr₁ (by rw [← hd]; simp [dispatch, h1, h2, h3, h4, h5])
    rw [hma]
    rw [hmodels] at hok
    have htake : defaultModels.take 3 =
        "deepseek/deepseek-v3" ::
          ["deepseek/deepseek-r1-0528", "anthropic/claude-sonnet-4"] := rfl
    rw [htake] at hok
    have hne := selectSpecialists_ok_ne_nil analysis "deepseek/deepseek-v3"
      ["deepseek/deepseek-r1-0528", "anthropic/claude-sonnet-4"] hok
    intro hnil
    exact hne (List.map_eq_nil_iff.mp hnil)
  · have hu := dispatch_unknown env req (modelsOf req) (ctxInit req)
      (by simp [h1, h2, h3, h4, h5])
    rw [hu] at hd
    injection hd with hx _
    exact absurd hx (by simp)

/-- A parallel request without a models field. -/
def reqParDefault : OrchestrationRequest :=
  { prompt := "X", strategy := "parallel", useContext := some false }

/-- The result of running `reqParDefault` against `mockEnvA`. -/
def resParDefault : OrchestrationResult :=
  { strategy := "parallel",
    models := ["deepseek/deepseek-v3", "deepseek/deepseek-r1-0528", "anthropic/claude-sonnet-4"],
    responses := some [⟨"deepseek/deepseek-v3", "R"⟩, ⟨"deepseek/deepseek-r1-0528", "R"⟩,
      ⟨"anthropic/claude-sonnet-4", "R"⟩],
    synthesis := some "S", conversationId := some "conv-1" }

/-- Witness for the amended C1 at a concrete request without models. -/
theorem C1_witness :
    modelsOf reqParDefault = defaultModels.take 3 ∧ resParDefault.models ≠ [] :=
  C1_default_models_when_absent mockEnvA reqParDefault rfl rfl

/-! ### Specialist classification and routing -/

/-- Claim C7 (amended): when the classification provider call succeeds the
phase never throws; but the hardcoded default classification is used only
when the response is not valid JSON at all (the parse throws).  A
response that parses as any JSON value — whatever its shape — is used as
is. -/
theorem C7_classification_fallback (env : Env) (prompt resp : String) (tr : List Event)
    (hc : env.complete (analysisPrompt prompt) analysisOpts = Except.ok resp) :
    analyzePromptType env prompt tr =
      (Except.ok ((env.jsonParse resp).getD defaultClassification),
       tr ++ [Event.providerComplete (analysisPrompt prompt) analysisOpts]) := by
  simp only [analyzePromptType, bind_apply, callComplete, hc]
  cases env.jsonParse resp <;> simp [pure_apply, Option.getD]

/-- A provider double whose classification call returns the two-character
string `\x7b\x7d`; its parse model maps exactly that string to the empty
JSON object, agreeing with `JSON.parse` (which accepts it). -/
def mockEnvD : Env where
  complete := fun _ _ => Except.ok "\x7b\x7d"
  completeWithContext := fun _ _ => Except.ok "R"
  jsonParse := fun s => if s = "\x7b\x7d" then some (JsValue.obj []) else none
  initialHistory := []
  currentConversationId := "conv-1"

/-- A specialist request offering two coding-mapped models. -/
def reqSpecialist : OrchestrationRequest :=
  { prompt := "P", strategy := "specialist",
    models := some ["anthropic/claude-opus-4", "deepseek/deepseek-r1"],
    useContext := some false }

/-- Counterexample to C7 as stated: the classification call succeeds with
a response that is valid JSON but not the expected object shape (the
empty object).  The engine does not fall back to the default
classification: it proceeds with the empty object, whose undefined
`complexity` allows one model and whose undefined `primary` maps to the
`openai/gpt-4o` fallback list, so only one model (the first available) is
selected — whereas the default classification (primary coding, complexity
medium) selects both offered coding models. -/
theorem C7_counterexample :
    ((runOrchestrate mockEnvD reqSpecialist).1.map fun r => r.models) =
        Except.ok ["anthropic/claude-opus-4"] ∧
    ((selectSpecialists defaultClassification
        ["anthropic/claude-opus-4", "deepseek/deepseek-r1"]).map fun l => l.map (·.model)) =
      Except.ok ["anthropic/claude-opus-4", "deepseek/deepseek-r1"] :=
  ⟨rfl, rfl⟩

/-- Witness for the amended C7 at the concrete environment. -/
theorem C7_witness :
    analyzePromptType mockEnvD "P" [] =
      (Except.ok ((mockEnvD.jsonParse "\x7b\x7d").getD defaultClassification),
       [] ++ [Event.providerComplete (analysisPrompt "P") analysisOpts]) :=
  C7_classification_fallback mockEnvD "P" "\x7b\x7d" [] rfl

theorem pushPrimary_length (avail : List String) (n : Nat) (reason : String) :
    ∀ (l : List String) (acc : List Specialist), acc.length ≤ n →
      (pushPrimary avail n reason l acc).length ≤ n
  | [], _, h => h
  | m :: rest, acc, h => by
    simp only [pushPrimary]
    split
    · next hcond =>
      refine pushPrimary_length avail n reason rest _ ?_
      simp only [List.length_append, List.length_singleton]
      exact hcond.2
    · exact pushPrimary_length avail n reason rest acc h

theorem pushSecondary_length (avail : List String) (n : Nat) (reason : String) :
    ∀ (l : List String) (acc : List Specialist), acc.length ≤ n →
      (pushSecondary avail n reason l acc).length ≤ n
  | [], _, h => h
  | m :: rest, acc, h => by
    simp only [pushSecondary]
    split
    · next hcond =>
      refine pushSecondary_length avail n reason rest _ ?_
      simp only [List.length_append, List.length_singleton]
      exact hcond.2.2
    · exact pushSecondary_length avail n reason rest acc h

theorem pushPrimary_mem (avail : List String) (n : Nat) (reason : String) :
    ∀ (l : List String) (acc : List Specialist) (s : Specialist),
      s ∈ pushPrimary avail n reason l acc → s ∈ acc ∨ s.model ∈ avail
  | [], _, _, h => Or.inl h
  | m :: rest, acc, s, h => by
    simp only [pushPrimary] at h
    split at h
    · next hcond =>
      rcases pushPrimary_mem avail n reason rest _ s h with h1 | h1
      · rcases List.mem_append.mp h1 with h2 | h2
        · exact Or.inl h2
        · simp only [List.mem_singleton] at h2
          subst h2
          exact Or.inr hcond.1
      · exact Or.inr h1
    · exact pushPrimary_mem avail n reason rest acc s h

theorem pushSecondary_mem (avail : List String) (n : Nat) (reason : String) :
    ∀ (l : List String) (acc : List Specialist) (s : Specialist),
      s ∈ pushSecondary avail n reason l acc → s ∈ acc ∨ s.model ∈ avail
  | [], _, _, h => Or.inl h
  | m :: rest, acc, s, h => by
    simp only [pushSecondary] at h
    split at h
    · next hcond =>
      rcases pushSecondary_mem avail n reason rest _ s h with h1 | h1
      · rcases List.mem_append.mp h1 with h2 | h2
        · exact Or.inl h2
        · simp only [List.mem_singleton] at h2
          subst h2
          exact Or.inr hcond.1
      · exact Or.inr h1
    · exact pushSecondary_mem avail n reason rest acc s h

theorem pushPrimary_unavailable (avail : List String) (n : Nat) (reason : String) :
    ∀ (l : List String) (acc : List Specialist), (∀ x ∈ l, x ∉ avail) →
      pushPrimary avail n reason l acc = acc
  | [], _, _ => rfl
  | m :: rest, acc, h => by
    simp only [pushPrimary]
    rw [if_neg fun hcond => h m (List.mem_cons_self m rest) hcond.1]
    exact pushPrimary_unavailable avail n reason rest acc
      fun x hx => h x (List.mem_cons_of_mem m hx)

theorem pushSecondary_unavailable (avail : List String) (n : Nat) (reason : String) :
    ∀ (l : List String) (acc : List Specialist), (∀ x ∈ l, x ∉ avail) →
      pushSecondary avail n reason l acc = acc
  | [], _, _ => rfl
  | m :: rest, acc, h => by
    simp only [pushSecondary]
    rw [if_neg fun hcond => h m (List.mem_cons_self m rest) hcond.1]
    exact pushSecondary_unavailable avail n reason rest acc
      fun x hx => h x (List.mem_cons_of_mem m hx)

theorem numModelsFor_pos (c : Option JsValue) : 1 ≤ numModelsFor c := by
  match c with
  | none => exact Nat.le_refl 1
  | some (JsValue.str s) =>
    simp only [numModelsFor]
    split
    · exact Nat.le_of_lt (by omega)
    · split
      · exact Nat.le_of_lt (by omega)
      · exact Nat.le_refl 1
  | some (JsValue.num _) | some (JsValue.boolean _) | some JsValue.null
  | some (JsValue.arr _) | some (JsValue.obj _) => exact Nat.le_refl 1

/-- Counterexample to C8 as stated: two reachable classification
outcomes — the classifier answering the valid JSON text null, or an
object whose primary category names the inherited toString member — on
which the source selects nothing at all: property access on null throws
a TypeError, and the inherited map lookup yields a truthy non-iterable
member whose for-of throws.  In particular, with a non-empty model list
and no mapped model matching it, the promised single Default-model
selection does not happen on these outcomes. -/
theorem C8_counterexample :
    selectSpecialists JsValue.null ["anthropic/claude-opus-4"] =
        Except.error "TypeError: Cannot read properties of null" ∧
    selectSpecialists (JsValue.obj [("primary", JsValue.str "toString")])
        ["anthropic/claude-opus-4"] =
      Except.error "TypeError: not iterable" :=
  ⟨rfl, rfl⟩

/-- Claim C8 (amended): on every classification outcome on which the
selection completes — the classification value is not null and its
category fields do not name Object.prototype members, since on those the
strategy throws before selecting anything — the selection picks at most
N models (N = 3 for complexity high, 2 for medium, 1 for low or anything
unrecognized), every selected model is drawn from the available list,
and when no resolved primary or secondary candidate is available and the
list is non-empty, exactly its first element is selected with reason
"Default model". -/
theorem C8_specialist_selection (analysis : JsValue) (avail : List String)
    (pk sk ck : Option JsValue) (pl sl : List String)
    (hpk : getProp analysis "primary" = Except.ok pk)
    (hpl : specialistLookup pk ["openai/gpt-4o"] = Except.ok pl)
    (hsk : getProp analysis "secondary" = Except.ok sk)
    (hsl : specialistLookup sk [] = Except.ok sl)
    (hck : getProp analysis "complexity" = Except.ok ck) :
    selectSpecialists analysis avail =
        Except.ok (selectFrom pl sl (numModelsFor ck)
          ("Selected for " ++ jsPropertyKey pk ++ " tasks")
          ("Secondary specialist for " ++ jsPropertyKey sk) avail) ∧
    (selectFrom pl sl (numModelsFor ck)
        ("Selected for " ++ jsPropertyKey pk ++ " tasks")
        ("Secondary specialist for " ++ jsPropertyKey sk) avail).length ≤
      numModelsFor ck ∧
    (∀ s ∈ selectFrom pl sl (numModelsFor ck)
        ("Selected for " ++ jsPropertyKey pk ++ " tasks")
        ("Secondary specialist for " ++ jsPropertyKey sk) avail, s.model ∈ avail) ∧
    (numModelsFor (some (JsValue.str "high")) = 3 ∧
      numModelsFor (some (JsValue.str "medium")) = 2 ∧
      numModelsFor (some (JsValue.str "low")) = 1 ∧
      ∀ c, c ≠ some (JsValue.str "high") → c ≠ some (JsValue.str "medium") →
        numModelsFor c = 1) ∧
    ∀ m rest, avail = m :: rest →
      (∀ x ∈ pl, x ∉ avail) → (∀ x ∈ sl, x ∉ avail) →
      selectFrom pl sl (numModelsFor ck)
          ("Selected for " ++ jsPropertyKey pk ++ " tasks")
          ("Secondary specialist for " ++ jsPropertyKey sk) avail =
        [⟨m, "Default model"⟩] := by
  refine ⟨?_, ?_, ?_, ⟨rfl, rfl, rfl, ?_⟩, ?_⟩
  · simp only [selectSpecialists, bind, Except.bind, hpk, hpl, hsk, hsl, hck, pure,
      Except.pure]
  · simp only [selectFrom]
    split
    · next hzero =>
      have hnil := List.length_eq_zero.mp hzero
      rw [hnil]
      cases avail with
      | nil => exact Nat.zero_le _
      | cons m rest => simpa using numModelsFor_pos ck
    · exact pushSecondary_length avail _ _ _ _
        (pushPrimary_length avail _ _ _ [] (Nat.zero_le _))
  · intro s hs
    simp only [selectFrom] at hs
    split at hs
    · next hzero =>
      have hnil := List.length_eq_zero.mp hzero
      rw [hnil] at hs
      cases avail with
      | nil => simp at hs
      | cons m rest =>
        simp only [List.nil_append, List.mem_singleton] at hs
        subst hs
        exact List.mem_cons_self m rest
    · rcases pushSecondary_mem _ _ _ _ _ s hs with h1 | h1
      · rcases pushPrimary_mem _ _ _ _ _ s h1 with h2 | h2
        · exact absurd h2 (List.not_mem_nil s)
        · exact h2
      · exact h1
  · intro c h1 h2
    match c with
    | none => rfl
    | some (JsValue.num _) => rfl
    | some (JsValue.boolean _) => rfl
    | some JsValue.null => rfl
    | some (JsValue.arr _) => rfl
    | some (JsValue.obj _) => rfl
    | some (JsValue.str s) =>
      simp only [numModelsFor]
      rw [if_neg fun hs => h1 (by rw [hs]), if_neg fun hs => h2 (by rw [hs])]
  · intro m rest ha hp hsnd
    have hX1 : pushPrimary avail (numModelsFor ck)
        ("Selected for " ++ jsPropertyKey pk ++ " tasks") pl [] = [] :=
      pushPrimary_unavailable _ _ _ _ _ hp
    have hX2 : pushSecondary avail (numModelsFor ck)
        ("Secondary specialist for " ++ jsPropertyKey sk) sl
        (pushPrimary avail (numModelsFor ck)
          ("Selected for " ++ jsPropertyKey pk ++ " tasks") pl []) = [] := by
      rw [hX1]
      exact pushSecondary_unavailable _ _ _ _ _ hsnd
    simp only [selectFrom, hX2]
    rw [ha]
    simp

/-- The resolved selection of the default classification over a
one-model list (used by the C8 witness). -/
def selW : List Specialist :=
  selectFrom ["anthropic/claude-opus-4", "deepseek/deepseek-r1", "mistralai/codestral-2501"]
    [] (numModelsFor (some (JsValue.str "medium")))
    ("Selected for " ++ jsPropertyKey (some (JsValue.str "coding")) ++ " tasks")
    ("Secondary specialist for " ++ jsPropertyKey (some (JsValue.str "general")))
    ["mistralai/codestral-2501"]

/-- Witness for the amended C8 at the default classification and a
one-model list. -/
theorem C8_witness :
    selectSpecialists defaultClassification ["mistralai/codestral-2501"] =
        Except.ok selW ∧
    selW.length ≤ numModelsFor (some (JsValue.str "medium")) ∧
    (∀ s ∈ selW, s.model ∈ ["mistralai/codestral-2501"]) ∧
    (numModelsFor (some (JsValue.str "high")) = 3 ∧
      numModelsFor (some (JsValue.str "medium")) = 2 ∧
      numModelsFor (some (JsValue.str "low")) = 1 ∧
      ∀ c, c ≠ some (JsValue.str "high") → c ≠ some (JsValue.str "medium") →
        numModelsFor c = 1) ∧
    ∀ m rest, ["mistralai/codestral-2501"] = m :: rest →
      (∀ x ∈ ["anthropic/claude-opus-4", "deepseek/deepseek-r1", "mistralai/codestral-2501"],
          x ∉ ["mistralai/codestral-2501"]) →
      (∀ x ∈ ([] : List String), x ∉ ["mistralai/codestral-2501"]) →
      selW = [⟨m, "Default model"⟩] :=
  C8_specialist_selection defaultClassification ["mistralai/codestral-2501"]
    (some (JsValue.str "coding")) (some (JsValue.str "general"))
    (some (JsValue.str "medium"))
    ["anthropic/claude-opus-4", "deepseek/deepseek-r1", "mistralai/codestral-2501"] []
    rfl rfl rfl rfl rfl

/-! ### No context writes when useContext is false -/

/-- True exactly on context-write events. -/
def Event.isWrite : Event → Bool
  | Event.ctxAdd _ => true
  | _ => false

/-- A computation that adds no context write to the trace, whatever trace
it is started on. -/
def NoWrites {α : Type} (m : EngineM α) : Prop :=
  ∀ tr, ((m tr).2).filter Event.isWrite = tr.filter Event.isWrite

theorem noWrites_pure {α : Type} (a : α) : NoWrites (pure a : EngineM α) := fun _ => rfl

theorem noWrites_throwErr {α : Type} (e : String) : NoWrites (throwErr e : EngineM α) :=
  fun _ => rfl

theorem noWrites_bind {α β : Type} {m : EngineM α} {f : α → EngineM β}
    (hm : NoWrites m) (hf : ∀ a, NoWrites (f a)) : NoWrites (m >>= f) := by
  intro tr
  rw [bind_apply]
  have hmtr := hm tr
  cases hmt : m tr with
  | mk res tr' =>
    rw [hmt] at hmtr
    cases res with
    | ok a =>
      have hft := hf a tr'
      rw [hft]
      exact hmtr
    | error e => exact hmtr

theorem filter_write_append (tr : List Event) (ev : Event) (h : Event.isWrite ev = false) :
    (tr ++ [ev]).filter Event.isWrite = tr.filter Event.isWrite := by
  rw [List.filter_append]
  simp [h]

theorem noWrites_callComplete (env : Env) (p : String) (o : CompletionOptions) :
    NoWrites (callComplete env p o) :=
  fun tr => filter_write_append tr _ rfl

theorem noWrites_callCompleteCtx (env : Env) (msgs : List ContextMessage)
    (o : CompletionOptions) : NoWrites (callCompleteCtx env msgs o) :=
  fun tr => filter_write_append tr _ rfl

theorem noWrites_tryCallCompleteCtx (env : Env) (msgs : List ContextMessage)
    (o : CompletionOptions) : NoWrites (tryCallCompleteCtx env msgs o) :=
  fun tr => filter_write_append tr _ rfl

theorem noWrites_getConversationHistory (env : Env) :
    NoWrites (getConversationHistory env) :=
  fun tr => filter_write_append tr _ rfl

theorem noWrites_getSummaryId (env : Env) : NoWrites (getSummaryId env) :=
  fun tr => filter_write_append tr _ rfl

theorem noWrites_ite_of_neg {α : Type} {c : Prop} [Decidable c] {m1 m2 : EngineM α}
    (hc : ¬c) (h2 : NoWrites m2) : NoWrites (if c then m1 else m2) := by
  rw [if_neg hc]
  exact h2

theorem noWrites_seqLoop (env : Env) (req : OrchestrationRequest) (hist : List StoredMsg)
    (h : req.useContext = some false) :
    ∀ (ms : List String) (cur : String), NoWrites (seqLoop env req hist ms cur)
  | [], _ => noWrites_pure []
  | m :: rest, cur => by
    simp only [seqLoop]
    refine noWrites_bind (noWrites_callCompleteCtx env _ _) fun response => ?_
    refine noWrites_ite_of_neg (fun hne => hne h) ?_
    refine noWrites_bind (noWrites_pure _) fun _ => ?_
    exact noWrites_bind (noWrites_seqLoop env req hist h rest _) fun _ => noWrites_pure _

theorem noWrites_parLoop (env : Env) (req : OrchestrationRequest) (hist : List StoredMsg) :
    ∀ ms : List String, NoWrites (parLoop env req hist ms)
  | [] => noWrites_pure []
  | m :: rest => by
    simp only [parLoop]
    refine noWrites_bind (noWrites_tryCallCompleteCtx env _ _) fun r => ?_
    exact noWrites_bind (noWrites_parLoop env req hist rest) fun _ => noWrites_pure _

theorem noWrites_debateModelsLoop (env : Env) (req : OrchestrationRequest) (ctx : String)
    (rounds : List DebateRound) (round : Nat) :
    ∀ ms : List String, NoWrites (debateModelsLoop env req ctx rounds round ms)
  | [] => noWrites_pure []
  | m :: rest => by
    simp only [debateModelsLoop]
    refine noWrites_bind (noWrites_callComplete env _ _) fun resp => ?_
    exact noWrites_bind (noWrites_debateModelsLoop env req ctx rounds round rest)
      fun _ => noWrites_pure _

theorem noWrites_debateRoundsLoop (env : Env) (req : OrchestrationRequest)
    (ms : List String) (ctx : String) :
    ∀ (remaining round : Nat) (rounds : List DebateRound),
      NoWrites (debateRoundsLoop env req ms ctx remaining round rounds)
  | 0, _, rounds => noWrites_pure rounds
  | remaining + 1, round, rounds => by
    simp only [debateRoundsLoop]
    refine noWrites_bind (noWrites_debateModelsLoop env req ctx rounds round ms) fun rr => ?_
    exact noWrites_debateRoundsLoop env req ms ctx remaining (round + 1) _

theorem noWrites_specLoop (env : Env) (req : OrchestrationRequest)
    (h : req.useContext = some false) :
    ∀ specs : List Specialist, NoWrites (specLoop env req specs)
  | [] => noWrites_pure []
  | sp :: rest => by
    simp only [specLoop]
    refine noWrites_bind (noWrites_callComplete env _ _) fun resp => ?_
    refine noWrites_ite_of_neg (fun hne => hne h) ?_
    refine noWrites_bind (noWrites_pure _) fun _ => ?_
    exact noWrites_bind (noWrites_specLoop env req h rest) fun _ => noWrites_pure _

theorem noWrites_analyzePromptType (env : Env) (prompt : String) :
    NoWrites (analyzePromptType env prompt) := by
  simp only [analyzePromptType]
  refine noWrites_bind (noWrites_callComplete env _ _) fun resp => ?_
  cases env.jsonParse resp <;> exact noWrites_pure _

theorem noWrites_sequentialProcessing (env : Env) (req : OrchestrationRequest)
    (ms : List String) (h : req.useContext = some false) :
    NoWrites (sequentialProcessing env req ms) := by
  simp only [sequentialProcessing]
  refine noWrites_ite_of_neg (fun hne => hne h) ?_
  refine noWrites_bind (noWrites_pure _) fun history => ?_
  exact noWrites_bind (noWrites_seqLoop env req history h ms req.prompt)
    fun _ => noWrites_pure _

theorem noWrites_parallelProcessing (env : Env) (req : OrchestrationRequest)
    (ms : List String) (h : req.useContext = some false) :
    NoWrites (parallelProcessing env req ms) := by
  simp only [parallelProcessing, synthesizeResponses]
  refine noWrites_ite_of_neg (fun hne => hne h) ?_
  refine noWrites_bind (noWrites_pure _) fun history => ?_
  refine noWrites_bind (noWrites_parLoop env req history ms) fun collected => ?_
  refine noWrites_bind (noWrites_callComplete env _ _) fun synthesis => ?_
  refine noWrites_ite_of_neg (fun hab => hab.1 h) ?_
  refine noWrites_bind (noWrites_pure _) fun _ => ?_
  exact noWrites_pure _

theorem noWrites_debateMode (env : Env) (req : OrchestrationRequest) (ms : List String)
    (h : req.useContext = some false) : NoWrites (debateMode env req ms) := by
  simp only [debateMode, generateDebateConclusion]
  refine noWrites_bind (noWrites_debateRoundsLoop env req ms req.prompt _ _ _)
    fun rounds => ?_
  refine noWrites_bind (noWrites_callComplete env _ _) fun conclusion => ?_
  refine noWrites_ite_of_neg (fun hne => hne h) ?_
  refine noWrites_bind (noWrites_pure _) fun _ => ?_
  exact noWrites_pure _

theorem noWrites_consensusMode (env : Env) (req : OrchestrationRequest) (ms : List String)
    (h : req.useContext = some false) : NoWrites (consensusMode env req ms) := by
  simp only [consensusMode, findConsensus]
  refine noWrites_bind (noWrites_parallelProcessing env req ms h) fun pr => ?_
  refine noWrites_bind (noWrites_callComplete env _ _) fun cons => ?_
  refine noWrites_ite_of_neg (fun hne => hne h) ?_
  refine noWrites_bind (noWrites_pure _) fun _ => ?_
  exact noWrites_pure _

theorem noWrites_liftExcept {α : Type} (e : Except String α) : NoWrites (liftExcept e) :=
  fun _ => rfl

theorem noWrites_specialistRouting (env : Env) (req : OrchestrationRequest)
    (ms : List String) (h : req.useContext = some false) :
    NoWrites (specialistRouting env req ms) := by
  simp only [specialistRouting]
  refine noWrites_bind (noWrites_analyzePromptType env req.prompt) fun analysis => ?_
  refine noWrites_bind (noWrites_liftExcept _) fun specialists => ?_
  refine noWrites_bind (noWrites_specLoop env req h _) fun _ => ?_
  exact noWrites_pure _

theorem noWrites_dispatch (env : Env) (req : OrchestrationRequest) (ms : List String)
    (h : req.useContext = some false) : NoWrites (dispatch env req ms) := by
  unfold dispatch
  by_cases h1 : req.strategy = "sequential"
  · rw [if_pos h1]
    exact noWrites_sequentialProcessing env req ms h
  rw [if_neg h1]
  by_cases h2 : req.strategy = "parallel"
  · rw [if_pos h2]
    exact noWrites_parallelProcessing env req ms h
  rw [if_neg h2]
  by_cases h3 : req.strategy = "debate"
  · rw [if_pos h3]
    exact noWrites_debateMode env req ms h
  rw [if_neg h3]
  by_cases h4 : req.strategy = "consensus"
  · rw [if_pos h4]
    exact noWrites_consensusMode env req ms h
  rw [if_neg h4]
  by_cases h5 : req.strategy = "specialist"
  · rw [if_pos h5]
    exact noWrites_specialistRouting env req ms h
  rw [if_neg h5]
  exact noWrites_throwErr _

theorem noWrites_orchestrate (env : Env) (req : OrchestrationRequest)
    (h : req.useContext = some false) : NoWrites (orchestrate env req) := by
  simp only [orchestrate]
  refine noWrites_ite_of_neg (fun hne => hne h) ?_
  refine noWrites_bind (noWrites_pure _) fun _ => ?_
  refine noWrites_bind (noWrites_dispatch env req _ h) fun result => ?_
  refine noWrites_bind (noWrites_getSummaryId env) fun cid => ?_
  exact noWrites_pure _

/-- Claim C9: with `useContext` explicitly false a complete orchestrate
run — under any of the five strategies and even under an unrecognized
one, whatever the provider outcomes — performs no `addMessage` write:
neither for the user prompt, nor for per-model responses, nor for the
synthesis, consensus or conclusion texts.  The run is a deterministic
function of the environment, so repeating the identical call also writes
nothing. -/
theorem C9_no_context_writes (env : Env) (req : OrchestrationRequest)
    (h : req.useContext = some false) :
    ((runOrchestrate env req).2).filter Event.isWrite = [] := by
  have hnw := noWrites_orchestrate env req h []
  simpa [runOrchestrate] using hnw

/-- Witness for C9 at a concrete run (parallel, three models, one of
which fails). -/
theorem C9_witness :
    ((runOrchestrate mockEnvE reqParABC).2).filter Event.isWrite = [] :=
  C9_no_context_writes mockEnvE reqParABC rfl

/-! ### Substring containment -/

theorem data_append (a b : String) : (a ++ b).data = a.data ++ b.data := by
  cases a
  cases b
  rfl

/-- The proposition that `needle` occurs contiguously inside `hay`. -/
def strContains (needle hay : String) : Prop := needle.data <:+: hay.data

instance (needle hay : String) : Decidable (strContains needle hay) :=
  List.decidableInfix needle.data hay.data

theorem strContains_refl (a : String) : strContains a a := List.infix_refl a.data

theorem strContains_append_left (n a b : String) (h : strContains n a) :
    strContains n (a ++ b) := by
  obtain ⟨s, t, hst⟩ := h
  exact ⟨s, t ++ b.data, by rw [data_append, ← hst]; simp [List.append_assoc]⟩

theorem strContains_append_right (n a b : String) (h : strContains n b) :
    strContains n (a ++ b) := by
  obtain ⟨s, t, hst⟩ := h
  exact ⟨a.data ++ s, t, by rw [data_append, ← hst]; simp [List.append_assoc]⟩

theorem strContains_trans {a b c : String} (h1 : strContains a b) (h2 : strContains b c) :
    strContains a c := by
  obtain ⟨s1, t1, hs1⟩ := h1
  obtain ⟨s2, t2, hs2⟩ := h2
  exact ⟨s2 ++ s1, t1 ++ t2, by rw [← hs2, ← hs1]; simp [List.append_assoc]⟩

theorem strContains_joinSep (sep : String) :
    ∀ (l : List String) (a : String), a ∈ l → strContains a (joinSep sep l)
  | [], a, h => absurd h (List.not_mem_nil a)
  | [x], a, h => by
    simp only [List.mem_singleton] at h
    subst h
    exact strContains_refl a
  | x :: y :: t, a, h => by
    rcases List.mem_cons.mp h with h1 | h1
    · subst h1
      show strContains a (a ++ sep ++ joinSep sep (y :: t))
      exact strContains_append_left _ _ _ (strContains_append_left _ _ _ (strContains_refl a))
    · show strContains a (x ++ sep ++ joinSep sep (y :: t))
      exact strContains_append_right _ _ _ (strContains_joinSep sep (y :: t) a h1)

/-! ### The sequential strategy -/

/-- The message lists of the context-bearing provider calls in a trace. -/
def ctxCallMessages : Event → Option (List ContextMessage)
  | Event.providerCompleteCtx msgs _ => some msgs
  | _ => none

/-- Some message of the list carries the given text as a substring. -/
def msgsContain (needle : String) (msgs : List ContextMessage) : Prop :=
  ∃ m ∈ msgs, strContains needle m.content

instance (needle : String) (msgs : List ContextMessage) :
    Decidable (msgsContain needle msgs) :=
  List.decidableBEx _ msgs

/-- The events of the sequential loop, reconstructed from the model list
and the produced responses: for each model, a provider call on the
pre-fetched history plus the current prompt, immediately followed by the
context write of its response, before the next model is called; the
prompt chain embeds only the immediately preceding response. -/
def seqTraceFrom (req : OrchestrationRequest) (history : List StoredMsg) :
    List String → String → List ProviderResponse → List Event
  | model :: restM, cur, resp :: restR =>
    Event.providerCompleteCtx (seqMessages history cur) (mergeOpts req.options model) ::
      Event.ctxAdd ⟨"assistant", resp.response, some model, none⟩ ::
        seqTraceFrom req history restM (refinePrompt req.prompt model resp.response) restR
  | _, _, _ => []

/-- A successful sequential loop produces one response per model in input
order and appends exactly the call/write event pairs of `seqTraceFrom`. -/
theorem seqLoop_ok (env : Env) (req : OrchestrationRequest) (history : List StoredMsg)
    (hc : req.useContext ≠ some false) :
    ∀ (ms : List String) (cur : String) (tr tr' : List Event) (rs : List ProviderResponse),
      seqLoop env req history ms cur tr = (Except.ok rs, tr') →
      rs.map (·.model) = ms ∧ tr' = tr ++ seqTraceFrom req history ms cur rs
  | [], cur, tr, tr', rs, h => by
    simp only [seqLoop, pure_apply] at h
    injection h with h1 h2
    injection h1 with h1
    subst h2
    rw [← h1]
    exact ⟨rfl, by simp [seqTraceFrom]⟩
  | m :: rest, cur, tr, tr', rs, h => by
    simp only [seqLoop, bind_apply, callCompleteCtx] at h
    cases hcall : env.completeWithContext (seqMessages history cur)
        (mergeOpts req.options m) with
    | error e =>
      simp only [hcall] at h
      injection h with h1 _
      exact absurd h1 (by simp)
    | ok resp =>
      simp only [hcall] at h
      rw [if_pos hc] at h
      simp only [bind_apply, addMessage] at h
      cases hrec : seqLoop env req history rest (refinePrompt req.prompt m resp)
          ((tr ++ [Event.providerCompleteCtx (seqMessages history cur)
              (mergeOpts req.options m)]) ++
            [Event.ctxAdd ⟨"assistant", resp, some m, none⟩]) with
      | mk resR tr2 =>
        rw [hrec] at h
        cases resR with
        | error e =>
          injection h with h1 _
          exact absurd h1 (by simp)
        | ok a =>
          simp only [pure_apply] at h
          injection h with h1 h2
          injection h1 with h1
          subst h2
          obtain ⟨hmap, htr⟩ := seqLoop_ok env req history hc rest
            (refinePrompt req.prompt m resp) _ _ a hrec
          constructor
          · rw [← h1]
            simp [hmap]
          · rw [htr]
            simp [seqTraceFrom, ← h1, List.append_assoc]

/-- Claim C3 (amended): in a sequential run with `useContext` not false,
the trace is exactly: the user-prompt write, one history read, then for
each model a provider call immediately followed by the context write of
its response — the write lands before the call of the next model — and the
final summary read.  The message list of each call is the history read
once before the loop plus the single current prompt, whose refinement
form embeds only the immediately preceding response; responses of models
before that are not replayed into later calls. -/
theorem C3_sequential_trace (env : Env) (req : OrchestrationRequest)
    {r : OrchestrationResult} {tr : List Event}
    (hstrat : req.strategy = "sequential") (hc : req.useContext ≠ some false)
    (hrun : runOrchestrate env req = (Except.ok r, tr)) :
    r.responses ≠ none ∧
    (r.responses.getD []).map (·.model) = modelsOf req ∧
    tr = Event.ctxAdd (userMsg req.prompt) :: Event.ctxHistoryRead ::
      (seqTraceFrom req (histOf env [Event.ctxAdd (userMsg req.prompt)]) (modelsOf req)
        req.prompt (r.responses.getD []) ++ [Event.ctxSummaryRead]) := by
  obtain ⟨r₁, tr₁, hd, hr, htr⟩ := runOrchestrate_ok_inv env req r tr hrun
  have hci : ctxInit req = [Event.ctxAdd (userMsg req.prompt)] := by
    unfold ctxInit
    rw [if_pos hc]
  have hd' : sequentialProcessing env req (modelsOf req) [Event.ctxAdd (userMsg req.prompt)] =
      (Except.ok r₁, tr₁) := by
    rw [← hci, ← hd]
    simp [dispatch, hstrat]
  simp only [sequentialProcessing] at hd'
  rw [if_pos hc] at hd'
  simp only [bind_apply, getConversationHistory] at hd'
  obtain ⟨rs, hsl, hr₁⟩ := bind_pure_ok _ _ _ _ _ hd'
  obtain ⟨hmap, htr₁⟩ := seqLoop_ok env req _ hc (modelsOf req) req.prompt _ _ rs hsl
  subst hr
  subst hr₁
  refine ⟨by simp, by simpa using hmap, ?_⟩
  rw [htr, htr₁]
  simp

/-- A provider double answering a distinct fixed string per model. -/
def mockEnvC : Env where
  complete := fun _ _ => Except.ok "S"
  completeWithContext := fun _ o =>
    Except.ok
      (match o.model with
       | some "m0" => "AAA"
       | some "m1" => "BBB"
       | some "m2" => "CCC"
       | _ => "ZZZ")
  jsonParse := fun _ => none
  initialHistory := []
  currentConversationId := "conv-1"

/-- A three-model sequential request with default `useContext`. -/
def reqSeq3 : OrchestrationRequest :=
  { prompt := "P", strategy := "sequential", models := some ["m0", "m1", "m2"] }

set_option maxRecDepth 4000 in
/-- Counterexample to C3 as stated: the responses of the three models are
AAA, BBB, CCC, but the message list of the third provider call — the one
for model m2 — carries only the original prompt (from the pre-fetched
history) and the refinement prompt embedding BBB; no message of that list
contains the m0 response AAA, so the conversation history does NOT
make earlier responses visible to later models within the same run. -/
theorem C3_counterexample :
    ((runOrchestrate mockEnvC reqSeq3).1.map fun r => r.responses) =
        Except.ok (some [⟨"m0", "AAA"⟩, ⟨"m1", "BBB"⟩, ⟨"m2", "CCC"⟩]) ∧
    ((runOrchestrate mockEnvC reqSeq3).2.filterMap ctxCallMessages).get? 2 =
        some [⟨"user", "P"⟩, ⟨"user", refinePrompt "P" "m1" "BBB"⟩] ∧
    ¬ msgsContain "AAA" [⟨"user", "P"⟩, ⟨"user", refinePrompt "P" "m1" "BBB"⟩] :=
  ⟨rfl, rfl, by decide⟩

/-- A one-model sequential request with default `useContext`. -/
def reqSeq1 : OrchestrationRequest :=
  { prompt := "P", strategy := "sequential", models := some ["m0"] }

/-- The result of running `reqSeq1` against `mockEnvC`. -/
def resSeq1 : OrchestrationResult :=
  { strategy := "sequential", models := ["m0"], responses := some [⟨"m0", "AAA"⟩],
    conversationId := some "conv-1" }

/-- Witness for the amended C3 at a concrete one-model run. -/
theorem C3_witness :
    resSeq1.responses ≠ none ∧
    (resSeq1.responses.getD []).map (·.model) = modelsOf reqSeq1 ∧
    (runOrchestrate mockEnvC reqSeq1).2 =
      Event.ctxAdd (userMsg reqSeq1.prompt) :: Event.ctxHistoryRead ::
        (seqTraceFrom reqSeq1 (histOf mockEnvC [Event.ctxAdd (userMsg reqSeq1.prompt)])
          (modelsOf reqSeq1) reqSeq1.prompt (resSeq1.responses.getD []) ++
         [Event.ctxSummaryRead]) :=
  C3_sequential_trace mockEnvC reqSeq1 rfl (by decide) rfl

/-! ### The debate strategy -/

/-- The per-round fan-out of the debate as a value: one response per
model on the given prompt, or `none` when some call failed. -/
def roundCalls (env : Env) (req : OrchestrationRequest) (prompt : String) :
    List String → Option (List ProviderResponse)
  | [] => some []
  | m :: rest =>
    match env.complete prompt (mergeOpts req.options m) with
    | Except.ok resp => (roundCalls env req prompt rest).map (⟨m, resp⟩ :: ·)
    | Except.error _ => none

/-- A successful inner debate loop computes exactly `roundCalls` on the
round prompt. -/
theorem debateModelsLoop_ok (env : Env) (req : OrchestrationRequest) (ctx : String)
    (rounds : List DebateRound) (round : Nat) :
    ∀ (ms : List String) (tr tr' : List Event) (rr : List ProviderResponse),
      debateModelsLoop env req ctx rounds round ms tr = (Except.ok rr, tr') →
      roundCalls env req (debatePrompt ctx rounds round) ms = some rr
  | [], tr, tr', rr, h => by
    simp only [debateModelsLoop, pure_apply] at h
    injection h with h1 _
    injection h1 with h1
    rw [← h1]
    rfl
  | m :: rest, tr, tr', rr, h => by
    simp only [debateModelsLoop, bind_apply, callComplete] at h
    cases hcall : env.complete (debatePrompt ctx rounds round) (mergeOpts req.options m) with
    | error e =>
      simp only [hcall] at h
      injection h with h1 _
      exact absurd h1 (by simp)
    | ok resp =>
      simp only [hcall] at h
      cases hrec : debateModelsLoop env req ctx rounds round rest
          (tr ++ [Event.providerComplete (debatePrompt ctx rounds round)
            (mergeOpts req.options m)]) with
      | mk resR tr2 =>
        rw [hrec] at h
        cases resR with
        | error e =>
          injection h with h1 _
          exact absurd h1 (by simp)
        | ok a =>
          simp only [pure_apply] at h
          injection h with h1 _
          injection h1 with h1
          rw [← h1]
          simp only [roundCalls, hcall]
          rw [debateModelsLoop_ok env req ctx rounds round rest _ _ a hrec]
          rfl

/-- A successful outer debate loop extends its accumulator to a rounds
list of the demanded length whose entry at index j is numbered j+1 and
was produced by `roundCalls` on the prompt built from the first j
rounds. -/
theorem debateRoundsLoop_ok (env : Env) (req : OrchestrationRequest) (models : List String)
    (ctx : String) :
    ∀ (remaining round : Nat) (acc : List DebateRound) (tr tr' : List Event)
      (RS : List DebateRound),
      round = acc.length →
      debateRoundsLoop env req models ctx remaining round acc tr = (Except.ok RS, tr') →
      RS.length = acc.length + remaining ∧
      RS.take acc.length = acc ∧
      ∀ j rd, acc.length ≤ j → RS.get? j = some rd →
        rd.round = j + 1 ∧
        roundCalls env req (debatePrompt ctx (RS.take j) j) models = some rd.responses
  | 0, round, acc, tr, tr', RS, hround, h => by
    simp only [debateRoundsLoop, pure_apply] at h
    injection h with h1 _
    injection h1 with h1
    subst h1
    refine ⟨rfl, List.take_length acc, ?_⟩
    intro j rd hj hget
    rw [List.get?_eq_none.mpr hj] at hget
    cases hget
  | remaining + 1, round, acc, tr, tr', RS, hround, h => by
    simp only [debateRoundsLoop, bind_apply] at h
    cases hML : debateModelsLoop env req ctx acc round models tr with
    | mk resM tr2 =>
      rw [hML] at h
      cases resM with
      | error e =>
        injection h with h1 _
        exact absurd h1 (by simp)
      | ok rr =>
        have hcalls := debateModelsLoop_ok env req ctx acc round models tr tr2 rr hML
        have hIH := debateRoundsLoop_ok env req models ctx remaining (round + 1)
          (acc ++ [⟨round + 1, rr⟩]) tr2 tr' RS
          (by simp [hround]) h
        obtain ⟨hlen, htake, hentries⟩ := hIH
        have htake0 : RS.take acc.length = acc := by
          have hcg := congrArg (List.take acc.length) htake
          rw [List.take_take] at hcg
          rw [Nat.min_def] at hcg
          rw [if_pos (by simp [List.length_append])] at hcg
          rw [hcg]
          have : acc.length ≤ acc.length := Nat.le_refl _
          exact List.take_left acc [⟨round + 1, rr⟩]
        refine ⟨by simp [List.length_append] at hlen; omega, htake0, ?_⟩
        intro j rd hj hget
        rcases Nat.eq_or_lt_of_le hj with hje | hjl
        · subst hje
          have hget0 : RS.get? acc.length = some ⟨round + 1, rr⟩ := by
            have h1 : (RS.take (acc.length + 1)).get? acc.length =
                some ⟨round + 1, rr⟩ := by
              rw [show acc.length + 1 = (acc ++ [(⟨round + 1, rr⟩ : DebateRound)]).length
                    by simp, htake]
              exact List.get?_concat_length acc _
            rw [List.get?_take (Nat.lt_succ_self _)] at h1
            exact h1
          rw [hget0] at hget
          injection hget with hget
          subst hget
          refine ⟨by rw [hround], ?_⟩
          rw [htake0, ← hround]
          exact hcalls
        · have := hentries j rd (by simp [List.length_append]; omega) hget
          exact this

/-- Inversion of a successful `debateMode` run onto its rounds loop. -/
theorem debateMode_rounds (env : Env) (req : OrchestrationRequest) (ms : List String)
    (tr : List Event) (r : OrchestrationResult) (tr' : List Event)
    (h : debateMode env req ms tr = (Except.ok r, tr')) :
    ∃ RS tr₂, debateRoundsLoop env req ms req.prompt (effectiveMaxRounds req) 0 [] tr =
        (Except.ok RS, tr₂) ∧ r.rounds = some RS := by
  simp only [debateMode, bind_apply] at h
  cases hR : debateRoundsLoop env req ms req.prompt (effectiveMaxRounds req) 0 [] tr with
  | mk resR trR =>
    rw [hR] at h
    cases resR with
    | error e =>
      injection h with h1 _
      exact absurd h1 (by simp)
    | ok rounds =>
      refine ⟨rounds, trR, rfl, ?_⟩
      simp only [generateDebateConclusion, callComplete, bind_apply] at h
      cases hC : env.complete (conclusionPrompt rounds req.prompt) conclusionOpts with
      | error e =>
        simp only [hC] at h
        injection h with h1 _
        exact absurd h1 (by simp)
      | ok conclusion =>
        simp only [hC] at h
        by_cases hc : req.useContext ≠ some false
        · rw [if_pos hc] at h
          simp only [bind_apply, addMessage, pure_apply] at h
          injection h with h1 h2
          injection h1 with h1
          rw [← h1]
        · rw [if_neg hc] at h
          simp only [bind_apply, pure_apply] at h
          injection h with h1 h2
          injection h1 with h1
          rw [← h1]

theorem strContains_formatDebateHistory (rounds : List DebateRound) (rd : DebateRound)
    (resp : ProviderResponse) (hrd : rd ∈ rounds) (hresp : resp ∈ rd.responses) :
    strContains resp.response (formatDebateHistory rounds) := by
  have h1 : strContains resp.response (resp.model ++ ": " ++ resp.response) :=
    strContains_append_right _ _ _ (strContains_refl _)
  have h2 : strContains (resp.model ++ ": " ++ resp.response)
      (joinSep "\n\n" (rd.responses.map fun r => r.model ++ ": " ++ r.response)) :=
    strContains_joinSep _ _ _ (List.mem_map_of_mem _ hresp)
  have h3 : strContains
      (joinSep "\n\n" (rd.responses.map fun r => r.model ++ ": " ++ r.response))
      ("Round " ++ toString rd.round ++ ":\n" ++
        joinSep "\n\n" (rd.responses.map fun r => r.model ++ ": " ++ r.response)) :=
    strContains_append_right _ _ _ (strContains_refl _)
  have h4 : strContains
      ("Round " ++ toString rd.round ++ ":\n" ++
        joinSep "\n\n" (rd.responses.map fun r => r.model ++ ": " ++ r.response))
      (formatDebateHistory rounds) :=
    strContains_joinSep _ _ _ (List.mem_map_of_mem _ hrd)
  exact strContains_trans h1 (strContains_trans h2 (strContains_trans h3 h4))

theorem strContains_debatePrompt (ctx : String) (rounds : List DebateRound) (round : Nat)
    (hr : round ≠ 0) (rd : DebateRound) (resp : ProviderResponse)
    (hrd : rd ∈ rounds) (hresp : resp ∈ rd.responses) :
    strContains resp.response (debatePrompt ctx rounds round) := by
  unfold debatePrompt
  rw [if_neg hr]
  exact strContains_append_left _ _ _
    (strContains_append_right _ _ _ (strContains_formatDebateHistory rounds rd resp hrd hresp))

/-- Claim C6: in a successful debate run the rounds list has exactly
`options.maxRounds` entries (3 when unspecified; `maxRounds` is taken
positive as the data model demands — the code maps an explicit 0 to 3 as
well); the entry at index j is numbered j+1 and was produced by provider
calls on the prompt built from the first j rounds; that prompt is the
bare original prompt for j = 0 (no history injection) and for j ≥ 1
embeds every response of every prior round verbatim. -/
theorem C6_debate_rounds (env : Env) (req : OrchestrationRequest)
    {r : OrchestrationResult} {tr : List Event}
    (hstrat : req.strategy = "debate")
    (hpos : ∀ n, req.options.bind (·.maxRounds) = some n → 0 < n)
    (hrun : runOrchestrate env req = (Except.ok r, tr)) :
    r.rounds ≠ none ∧
    (r.rounds.getD []).length = (req.options.bind (·.maxRounds)).getD 3 ∧
    (∀ j rd, (r.rounds.getD []).get? j = some rd →
      rd.round = j + 1 ∧
      roundCalls env req (debatePrompt req.prompt ((r.rounds.getD []).take j) j)
        (modelsOf req) = some rd.responses) ∧
    (∀ rds : List DebateRound, debatePrompt req.prompt rds 0 = req.prompt) ∧
    (∀ (j : Nat) (rds : List DebateRound) (rd : DebateRound) (resp : ProviderResponse),
      j ≠ 0 → rd ∈ rds → resp ∈ rd.responses →
      strContains resp.response (debatePrompt req.prompt rds j)) := by
  have heff : effectiveMaxRounds req = (req.options.bind (·.maxRounds)).getD 3 := by
    unfold effectiveMaxRounds
    cases hmr : req.options.bind (·.maxRounds) with
    | none => rfl
    | some n =>
      show (if n = 0 then 3 else n) = (some n).getD 3
      rw [if_neg (Nat.pos_iff_ne_zero.mp (hpos n hmr))]
      rfl
  obtain ⟨r₁, tr₁, hd, hr, htr⟩ := runOrchestrate_ok_inv env req r tr hrun
  have hd' : debateMode env req (modelsOf req) (ctxInit req) = (Except.ok r₁, tr₁) := by
    rw [← hd]
    simp [dispatch, hstrat]
  obtain ⟨RS, tr₂, hloop, hrounds⟩ :=
    debateMode_rounds env req (modelsOf req) (ctxInit req) r₁ tr₁ hd'
  obtain ⟨hlen, _, hentries⟩ :=
    debateRoundsLoop_ok env req (modelsOf req) req.prompt (effectiveMaxRounds req) 0 []
      (ctxInit req) tr₂ RS rfl hloop
  subst hr
  have hrds : r₁.rounds = some RS := hrounds
  refine ⟨by simp [hrds], ?_, ?_, ?_, ?_⟩
  · simp only [hrds]
    simpa [heff] using hlen
  · intro j rd hget
    simp only [hrds] at hget
    have := hentries j rd (Nat.zero_le j) (by simpa using hget)
    simpa [hrds] using this
  · intro rds
    rfl
  · intro j rds rd resp hj hrd hresp
    exact strContains_debatePrompt req.prompt rds j hj rd resp hrd hresp

/-- A one-model debate request with two rounds and `useContext` false. -/
def reqDeb : OrchestrationRequest :=
  { prompt := "T", strategy := "debate", models := some ["A"],
    options := some { maxRounds := some 2 }, useContext := some false }

/-- The result of running `reqDeb` against `mockEnvC`. -/
def resDeb : OrchestrationResult :=
  { strategy := "debate", models := ["A"],
    rounds := some [⟨1, [⟨"A", "S"⟩]⟩, ⟨2, [⟨"A", "S"⟩]⟩],
    conclusion := some "S", conversationId := some "conv-1" }

/-- Witness for C6 at a concrete two-round debate. -/
theorem C6_witness :
    resDeb.rounds ≠ none ∧
    (resDeb.rounds.getD []).length = (reqDeb.options.bind (·.maxRounds)).getD 3 ∧
    (∀ j rd, (resDeb.rounds.getD []).get? j = some rd →
      rd.round = j + 1 ∧
      roundCalls mockEnvC reqDeb
        (debatePrompt reqDeb.prompt ((resDeb.rounds.getD []).take j) j)
        (modelsOf reqDeb) = some rd.responses) ∧
    (∀ rds : List DebateRound, debatePrompt reqDeb.prompt rds 0 = reqDeb.prompt) ∧
    (∀ (j : Nat) (rds : List DebateRound) (rd : DebateRound) (resp : ProviderResponse),
      j ≠ 0 → rd ∈ rds → resp ∈ rd.responses →
      strContains resp.response (debatePrompt reqDeb.prompt rds j)) :=
  C6_debate_rounds mockEnvC reqDeb rfl
    (fun n hn => by injection hn with hn; omega) rfl

end MultiAI
